import Mathlib

/-!
Verification of the trending-news pipeline of `trending/scripts/news_generator.py`
(class `EnhancedTrendingNewsGenerator`).

Python strings are modelled as lists of code points (`List Nat`); the model
covers the ASCII fragment of Python's `str.lower`, `str.strip`, `re` character
classes `\w`/`\s`, which is the alphabet the pipeline actually manipulates.
Pure functions of the script are translated one-to-one; network results,
file-system state and `random.sample` appear as explicit parameters.
-/

set_option maxRecDepth 100000

namespace NewsGen

/-- A Python string, as its sequence of code points. -/
abbrev PyStr := List Nat

/-- Convert a Lean string literal to its code-point model. -/
def str2cp (s : String) : PyStr := s.data.map Char.toNat

/-- Python regex `\s` (ASCII fragment): space, tab, newline, CR, VT, FF. -/
def isSpaceB (c : Nat) : Bool := c == 32 || c == 9 || c == 10 || c == 13 || c == 11 || c == 12

/-- Python regex `\w` (ASCII fragment): letters, digits, underscore. -/
def isWordCharB (c : Nat) : Bool :=
  (48 ≤ c && c ≤ 57) || (65 ≤ c && c ≤ 90) || (97 ≤ c && c ≤ 122) || c == 95

/-- `str.lower` on one code point (ASCII fragment). -/
def toLowerCP (c : Nat) : Nat := if 65 ≤ c ∧ c ≤ 90 then c + 32 else c

/-- `str.strip()`: drop leading and trailing whitespace. -/
def pyStrip (s : PyStr) : PyStr :=
  (((s.dropWhile isSpaceB).reverse).dropWhile isSpaceB).reverse

/-- `re.sub(r'\s+', ' ', s)`: each maximal whitespace run becomes one space. -/
def collapseSpaces : PyStr → PyStr
  | [] => []
  | [c] => if isSpaceB c then [32] else [c]
  | c :: d :: cs =>
    if isSpaceB c then
      (if isSpaceB d then collapseSpaces (d :: cs) else 32 :: collapseSpaces (d :: cs))
    else c :: collapseSpaces (d :: cs)

/-- Split into groups delimited by whitespace characters, keeping empty groups
(the helper underlying Python `str.split()`). -/
def splitOnSpace : PyStr → List PyStr
  | [] => [[]]
  | c :: cs =>
    if isSpaceB c then [] :: splitOnSpace cs
    else
      match splitOnSpace cs with
      | [] => [[c]]
      | g :: gs => (c :: g) :: gs

/-- Python `str.split()` with no argument: maximal nonempty non-whitespace runs. -/
def splitWords (s : PyStr) : List PyStr := (splitOnSpace s).filter (fun g => !g.isEmpty)

/-- `' '.join(ws)`. -/
def joinSpace : List PyStr → PyStr
  | [] => []
  | [w] => w
  | w :: ws => w ++ 32 :: joinSpace ws

/-- Lexicographic comparison of Python strings by code point (`list.sort`). -/
def lexLe : PyStr → PyStr → Bool
  | [], _ => true
  | _ :: _, [] => false
  | a :: as, b :: bs => if a < b then true else if a == b then lexLe as bs else false

/-- Insert into a `lexLe`-sorted list (Python `list.sort` is this order;
string comparison is antisymmetric, so stability does not matter). -/
def insertWord (w : PyStr) : List PyStr → List PyStr
  | [] => [w]
  | v :: vs => if lexLe w v then w :: v :: vs else v :: insertWord w vs

/-- `filtered_words.sort()`. -/
def sortWords : List PyStr → List PyStr
  | [] => []
  | w :: ws => insertWord w (sortWords ws)

/-- The six label patterns of `prefixes_to_remove`
(`breaking update news trending live urgent`, each as `^word:?\s*`). -/
def label_words : List PyStr :=
  [str2cp "breaking", str2cp "update", str2cp "news",
   str2cp "trending", str2cp "live", str2cp "urgent"]

/-- `re.sub(r'^word:?\s*', '', s)`: if `w` starts the string, drop it, one
optional colon, and any following whitespace. -/
def stripLabel (w : PyStr) (s : PyStr) : PyStr :=
  if w.isPrefixOf s then
    let r := s.drop w.length
    let r := match r with
      | 58 :: r1 => r1
      | _ => r
    r.dropWhile isSpaceB
  else s

/-- The `for prefix in prefixes_to_remove` loop: the six substitutions in order. -/
def stripLabels (s : PyStr) : PyStr := label_words.foldl (fun acc w => stripLabel w acc) s

/-- The `stop_words` list of `normalize_title`. -/
def stop_words : List PyStr :=
  [str2cp "the", str2cp "a", str2cp "an", str2cp "and", str2cp "or", str2cp "but",
   str2cp "in", str2cp "on", str2cp "at", str2cp "to", str2cp "for", str2cp "of",
   str2cp "with", str2cp "by", str2cp "today", str2cp "yesterday", str2cp "now",
   str2cp "new", str2cp "latest", str2cp "major"]

/-- `normalize_title` (news_generator.py:267-297): lowercase and strip, remove
label prefixes, remove non-word non-space characters, collapse whitespace,
split, remove stop words, sort, and re-join with single spaces. -/
def normalize_title (title : PyStr) : PyStr :=
  let n0 := pyStrip (title.map toLowerCP)
  let n1 := stripLabels n0
  let n2 := n1.filter (fun c => isWordCharB c || isSpaceB c)
  let n3 := pyStrip (collapseSpaces n2)
  let ws := splitWords n3
  let fw := ws.filter (fun w => decide (w ∉ stop_words))
  joinSpace (sortWords fw)

/-! ### DailyTopicLedger (news_generator.py:38-79) -/

/-- The states the ledger file can be in when `load_daily_topics` opens it.
`record` is a JSON object `{date: ..., topics: [...]}` (a missing `date`
field is `date = none`); `nonObjectJson` is a file holding valid JSON whose
top level is not an object; `unreadable` is a file `open()` cannot read
(e.g. a permission error). -/
inductive LedgerStorage where
  | missing : LedgerStorage
  | unreadable : LedgerStorage
  | invalidJson : LedgerStorage
  | nonObjectJson : LedgerStorage
  | record (date : Option PyStr) (topics : List PyStr) : LedgerStorage
deriving DecidableEq

/-- Python exceptions that can escape `load_daily_topics`. -/
inductive PyExc where
  | osError : PyExc
  | attributeError : PyExc
deriving DecidableEq

/-- `load_daily_topics` (news_generator.py:38-56). A missing file and a
`json.JSONDecodeError` yield the empty set; a stored date other than today
yields the empty set; `open()` failures other than `FileNotFoundError`
propagate, as does the `AttributeError` from calling `.get` on a non-dict. -/
def load_daily_topics (today : PyStr) (st : LedgerStorage) : Except PyExc (List PyStr) :=
  match st with
  | .missing => .ok []
  | .unreadable => .error .osError
  | .invalidJson => .ok []
  | .nonObjectJson => .error .attributeError
  | .record date topics => if date = some today then .ok topics else .ok []

/-! ### TopicSelector (news_generator.py:81-265, 457-493)

Topics are modelled by their `title` string: every check the selector
performs (`normalize_title`, `len(title)`, ledger membership) depends only
on the title.  The raw candidates produced by the three primary feed methods
and the entries of the expanded-search feeds arrive as parameters. -/

/-- The twelve titles of `get_fallback_topics` (news_generator.py:464-477). -/
def fallback_titles : List PyStr :=
  [str2cp "Tech Companies Report Strong Q4 Earnings Despite Market Volatility",
   str2cp "New Climate Policy Announced at International Summit",
   str2cp "NASA Announces Major Discovery in Mars Exploration Mission",
   str2cp "Global Markets React to Federal Reserve Interest Rate Decision",
   str2cp "Breakthrough in Cancer Treatment Shows Promising Results in Trials",
   str2cp "Major Data Breach Affects Millions of Users Worldwide",
   str2cp "Renewable Energy Reaches New Milestone in Global Adoption",
   str2cp "Electric Vehicle Sales Surge as New Models Hit Market",
   str2cp "AI Technology Breakthrough Revolutionizes Healthcare Industry",
   str2cp "International Trade Agreement Reached After Months of Negotiations",
   str2cp "Major Archaeological Discovery Rewrites Ancient History",
   str2cp "Quantum Computing Milestone Achieved by Research Team"]

/-- `get_fallback_topics` (news_generator.py:457-493): the fallback titles
whose normalized key is not in today's ledger, truncated to `num_topics`. -/
def get_fallback_topics (num : Nat) (daily : List PyStr) : List PyStr :=
  (fallback_titles.filter (fun t => decide (normalize_title t ∉ daily))).take num

/-- The ten date-stamped templates of `create_emergency_topics`
(news_generator.py:232-243); `dateStr` is `current_date.strftime("%B %d, %Y")`. -/
def emergency_templates (dateStr : PyStr) : List PyStr :=
  [str2cp "Breaking: Major Development in Global Markets on " ++ dateStr,
   str2cp "Technology Sector Update: Key Changes Announced " ++ dateStr,
   str2cp "Healthcare Breakthrough Reported This Week - " ++ dateStr,
   str2cp "Environmental Policy Changes Take Effect " ++ dateStr,
   str2cp "Financial Markets Analysis: Weekly Report " ++ dateStr,
   str2cp "Scientific Research Update: New Findings " ++ dateStr,
   str2cp "International Relations: Latest Developments " ++ dateStr,
   str2cp "Energy Sector News: Market Changes " ++ dateStr,
   str2cp "Education System Updates: Policy Changes " ++ dateStr,
   str2cp "Transportation Industry: New Announcements " ++ dateStr]

/-- The template loop of `create_emergency_topics` (news_generator.py:245-265):
stop at `num_topics`, accept a template only if its key is neither in the
ledger nor among the keys already accepted in this loop. -/
def emergencyLoop (num : Nat) (daily : List PyStr) :
    List PyStr → List PyStr → List PyStr → List PyStr
  | [], _, acc => acc
  | t :: ts, seen, acc =>
    if acc.length ≥ num then acc
    else
      let k := normalize_title t
      if k ∉ daily ∧ k ∉ seen then emergencyLoop num daily ts (seen ++ [k]) (acc ++ [t])
      else emergencyLoop num daily ts seen acc

/-- `create_emergency_topics` (news_generator.py:224-265). -/
def create_emergency_topics (num : Nat) (daily : List PyStr) (dateStr : PyStr) : List PyStr :=
  emergencyLoop num daily (emergency_templates dateStr) [] []

/-- The per-entry filter and cap of `get_expanded_news_topics`
(news_generator.py:168-222): walk the feed entries (at most ten per feed,
flattened here in feed order), stop at `num_needed`, and accept an entry
whose key is neither in the ledger nor in `seen_titles` and whose title has
more than ten characters.  `seen_titles` is NOT updated inside this loop. -/
def expandedLoop (numNeeded : Nat) (daily seen : List PyStr) :
    List PyStr → List PyStr → List PyStr
  | [], acc => acc
  | t :: ts, acc =>
    if acc.length ≥ numNeeded then acc
    else
      let k := normalize_title t
      if k ∉ daily ∧ k ∉ seen ∧ t.length > 10 then expandedLoop numNeeded daily seen ts (acc ++ [t])
      else expandedLoop numNeeded daily seen ts acc

/-- `get_expanded_news_topics` (news_generator.py:168-222), over the flattened
entry titles of the additional feeds. -/
def get_expanded_news_topics (numNeeded : Nat) (daily seen entries : List PyStr) : List PyStr :=
  expandedLoop numNeeded daily seen entries []

/-- The primary dedup loop of `get_trending_topics` (news_generator.py:104-113):
state is `(seen_titles, unique_topics)`; a raw candidate is accepted when its
key is new in this batch, not in the ledger, and the target count is not met. -/
def primaryDedup (num : Nat) (daily : List PyStr) :
    List PyStr → List PyStr → List PyStr → List PyStr × List PyStr
  | [], seen, acc => (seen, acc)
  | t :: ts, seen, acc =>
    let k := normalize_title t
    if k ∉ seen ∧ k ∉ daily ∧ acc.length < num then
      primaryDedup num daily ts (seen ++ [k]) (acc ++ [t])
    else primaryDedup num daily ts seen acc

/-- The loop adding expanded-search topics (news_generator.py:125-130): each
additional topic is appended unconditionally (up to the count) and only then
recorded in `seen_titles`. -/
def expandedAppend (num : Nat) :
    List PyStr → List PyStr → List PyStr → List PyStr × List PyStr
  | [], seen, acc => (seen, acc)
  | t :: ts, seen, acc =>
    if acc.length ≥ num then (seen, acc)
    else expandedAppend num ts (seen ++ [normalize_title t]) (acc ++ [t])

/-- The loop adding fallback topics (news_generator.py:137-145). -/
def fallbackAppend (num : Nat) (daily : List PyStr) :
    List PyStr → List PyStr → List PyStr → List PyStr × List PyStr
  | [], seen, acc => (seen, acc)
  | t :: ts, seen, acc =>
    if acc.length ≥ num then (seen, acc)
    else
      let k := normalize_title t
      if k ∉ seen ∧ k ∉ daily then fallbackAppend num daily ts (seen ++ [k]) (acc ++ [t])
      else fallbackAppend num daily ts seen acc

/-- `get_trending_topics` (news_generator.py:81-166): primary dedup over the
raw candidates of the three feed methods, then — while short — the expanded
search, the static fallback pool, and (only when nothing at all was found)
the emergency topics; finally truncate to `num_topics`. -/
def get_trending_topics (num : Nat) (daily : List PyStr)
    (raw expandedEntries : List PyStr) (dateStr : PyStr) : List PyStr :=
  let s1 := primaryDedup num daily raw [] []
  let s2 :=
    if s1.2.length < num then
      let additional := get_expanded_news_topics (num - s1.2.length) daily s1.1 expandedEntries
      expandedAppend num additional s1.1 s1.2
    else s1
  let s3 :=
    if s2.2.length < num then fallbackAppend num daily (get_fallback_topics num daily) s2.1 s2.2
    else s2
  let unique := if s3.2.length = 0 then create_emergency_topics num daily dateStr else s3.2
  unique.take num

/-! ### ResearchGatherer (news_generator.py:543-698) -/

/-- Python's substring test `p in s`. -/
def isSubstr : PyStr → PyStr → Bool
  | p, s =>
    p.isPrefixOf s ||
      match s with
      | [] => false
      | _ :: t => isSubstr p t

/-- `'w' in topic['title'].lower()`, the category heuristic used throughout. -/
def titleHas (title : PyStr) (w : String) : Bool := isSubstr (str2cp w) (title.map toLowerCP)

/-- Split on the newline character (Python `text.split('\n')`). -/
def splitOnNl : PyStr → List PyStr
  | [] => [[]]
  | c :: cs =>
    if c == 10 then [] :: splitOnNl cs
    else
      match splitOnNl cs with
      | [] => [[c]]
      | g :: gs => (c :: g) :: gs

/-- `skip_keywords` (news_generator.py:574). -/
def skip_keywords : List PyStr :=
  [str2cp "menu", str2cp "login", str2cp "sign up", str2cp "cookie", str2cp "privacy",
   str2cp "subscribe", str2cp "newsletter", str2cp "advertisement"]

/-- The meaningful-line selection loop (news_generator.py:576-580): keep a
line when its length is strictly between 30 and 500, it contains no
`skip_keywords` entry (case-insensitively), and fewer than 3 lines are kept;
the kept line is truncated to 300 characters. -/
def meaningfulLoop : List PyStr → List PyStr → List PyStr
  | [], acc => acc
  | l :: ls, acc =>
    if l.length > 30 ∧ l.length < 500 ∧
        (skip_keywords.all fun w => !(isSubstr w (l.map toLowerCP))) ∧ acc.length < 3 then
      meaningfulLoop ls (acc ++ [l.take 300])
    else meaningfulLoop ls acc

/-- `generate_fallback_content_for_topic` (news_generator.py:605-648): the
deterministic category fallback generator.  `netloc` models
`urlparse(url).netloc`; the topic is its title. -/
def generate_fallback_content_for_topic (netloc : PyStr) (topic : Option PyStr) : List PyStr :=
  match topic with
  | none =>
    [str2cp "Content from " ++ netloc ++ str2cp " is currently unavailable due to access restrictions.",
     str2cp "The website may be experiencing technical difficulties or high traffic.",
     str2cp "This is a placeholder summary based on the trending topic analysis."]
  | some title =>
    let tl := title.map toLowerCP
    if titleHas title "police" || titleHas title "investigation" then
      [str2cp "Authorities are investigating the circumstances surrounding " ++ tl ++
         str2cp ", according to sources familiar with the matter.",
       str2cp "Law enforcement officials have confirmed they are treating this as a priority case requiring immediate attention and thorough investigation.",
       str2cp "The investigation involves multiple departments working together to gather evidence and interview key witnesses, according to " ++
         netloc ++ str2cp " reports."]
    else if titleHas title "dead" || titleHas title "killed" || titleHas title "died" then
      [str2cp "Multiple fatalities have been confirmed in an incident involving " ++ tl ++
         str2cp ", emergency services report.",
       str2cp "First responders arrived at the scene within minutes of receiving initial emergency calls, immediately beginning rescue and recovery operations.",
       str2cp "Medical personnel and law enforcement are working together to secure the area and provide assistance to those affected, sources tell " ++
         netloc ++ str2cp "."]
    else if titleHas title "government" || titleHas title "minister" || titleHas title "policy" then
      [str2cp "Government officials have announced significant policy changes regarding " ++ tl ++
         str2cp ", marking a major shift in official position.",
       str2cp "The announcement comes after extensive consultation with stakeholders and represents a comprehensive approach to addressing the issue.",
       str2cp "Cabinet ministers have expressed their full support for the new measures, which are expected to have wide-ranging implications, " ++
         netloc ++ str2cp " reports."]
    else if titleHas title "court" || titleHas title "trial" || titleHas title "lawsuit" then
      [str2cp "Legal proceedings are advancing in the case involving " ++ tl ++
         str2cp ", with both sides preparing comprehensive arguments.",
       str2cp "Court officials have confirmed that all proper procedures are being followed to ensure a fair and thorough hearing of the matter.",
       str2cp "The case has attracted significant attention from legal experts who note its potential to set important precedents, according to " ++
         netloc ++ str2cp "."]
    else
      [str2cp "Developing story: " ++ title ++
         str2cp " continues to unfold as authorities and stakeholders respond to the evolving situation.",
       str2cp "Multiple agencies are coordinating their response efforts to address the complex circumstances surrounding this developing story.",
       str2cp "Officials have promised regular updates as more information becomes available, with transparency maintained throughout the process, " ++
         netloc ++ str2cp " reports."]

/-- The outcome of `requests.get` for one candidate URL: a timeout, another
`RequestException` (connection errors, and non-success statuses via
`raise_for_status`), any other exception (e.g. a parse error), or a response
with its `content-type` header and body text (the text of the page after
`BeautifulSoup` strips script/style/nav/header/footer elements). -/
inductive FetchOutcome where
  | timeout : FetchOutcome
  | requestError : FetchOutcome
  | otherError : FetchOutcome
  | success (contentType : PyStr) (body : PyStr) : FetchOutcome

/-- `extract_first_three_lines` (news_generator.py:543-603).  `netloc` models
`urlparse(url).netloc`. -/
def extract_first_three_lines (netloc : PyStr) (fetch : FetchOutcome) (topic : Option PyStr) :
    List PyStr :=
  match fetch with
  | .timeout =>
    [str2cp "Request to " ++ netloc ++ str2cp " timed out.",
     str2cp "The website may be experiencing high traffic or connectivity issues.",
     str2cp "This is a fallback summary for the trending topic."]
  | .requestError => generate_fallback_content_for_topic netloc topic
  | .otherError => generate_fallback_content_for_topic netloc topic
  | .success contentType body =>
    if !(isSubstr (str2cp "html") (contentType.map toLowerCP)) then
      [str2cp "Content from " ++ netloc ++ str2cp " is not in HTML format.",
       str2cp "This may be a file download or API endpoint rather than a webpage.",
       str2cp "Please check the source directly for complete information."]
    else
      let lines := ((splitOnNl body).map pyStrip).filter (fun l => !l.isEmpty)
      let meaningful := meaningfulLoop lines []
      if meaningful.isEmpty then
        [str2cp "No meaningful content could be extracted from " ++ netloc ++ str2cp ".",
         str2cp "The webpage may have restricted access or unusual formatting.",
         str2cp "This is a placeholder summary based on the trending topic."]
      else meaningful.take 3

/-! ### ContentSynthesizer (news_generator.py:878-1008, 1010-1356)

`research_data['website_content']` is modelled as an association list of
`(domain, lines)` in insertion order; a topic is its title; `random.sample`
is an explicit oracle parameter. -/

/-- `research_data['website_content']`. -/
abbrev WebsiteContent := List (PyStr × List PyStr)

/-- `is_fallback_content` (news_generator.py:1010-1019): case-sensitive
marker-phrase test. -/
def is_fallback_content (content : PyStr) : Bool :=
  [str2cp "according to sources familiar with the matter",
   str2cp "emergency services report",
   str2cp "sources tell",
   str2cp "No meaningful content could be extracted",
   str2cp "Breaking News, Latest News and Videos"].any fun m => isSubstr m content

/-- `is_generic_content` (news_generator.py:1053-1060): case-insensitive
boilerplate test. -/
def is_generic_content (content : PyStr) : Bool :=
  [str2cp "cookie", str2cp "privacy policy", str2cp "subscribe", str2cp "newsletter",
   str2cp "advertisement", str2cp "sign up", str2cp "log in", str2cp "menu",
   str2cp "navigation", str2cp "follow us", str2cp "social media"].any
    fun p => isSubstr p (content.map toLowerCP)

/-- `content[:cut] + ("..." if len(content) > cut else "")`. -/
def truncEllipsis (cut : Nat) (c : PyStr) : PyStr :=
  c.take cut ++ (if c.length > cut then str2cp "..." else [])

/-- First list element longer than `minLen` that is not generic, truncated at
`cut` (the scan pattern of `extract_key_details` and `generate_lead_section`). -/
def firstSubstantial (minLen cut : Nat) : List PyStr → Option PyStr
  | [] => none
  | c :: cs =>
    if c.length > minLen ∧ !(is_generic_content c) then some (truncEllipsis cut c)
    else firstSubstantial minLen cut cs

/-- All scraped lines in domain order (`all_content` of `extract_key_details`). -/
def allContent (research : WebsiteContent) : List PyStr := (research.map Prod.snd).flatten

/-- The result record of `extract_key_details`. -/
structure KeyDetails where
  lead_info : Option PyStr
  background : Option PyStr
  additional_content : Option PyStr

/-- `extract_key_details` (news_generator.py:1021-1051). -/
def extract_key_details (research : WebsiteContent) : KeyDetails :=
  let ac := allContent research
  { lead_info := firstSubstantial 100 400 ac
    background := firstSubstantial 80 350 (ac.drop 1)
    additional_content := firstSubstantial 80 300 (ac.drop 2) }

/-- The paragraph types `expand_paragraph` distinguishes. -/
inductive ParagraphType where
  | lead : ParagraphType
  | background : ParagraphType
  | details : ParagraphType
  | conclusion : ParagraphType

/-- The `additional_sentences` banks of `expand_paragraph`
(news_generator.py:1066-1089). -/
def additional_sentences : ParagraphType → List PyStr
  | .lead =>
    [str2cp "According to multiple sources familiar with the matter, the situation has been developing rapidly over the past several hours.",
     str2cp "Local authorities have confirmed they are treating this as a high-priority incident requiring immediate attention.",
     str2cp "Preliminary reports suggest the circumstances surrounding the event are complex and still being investigated."]
  | .background =>
    [str2cp "The incident comes at a time when public attention has been focused on similar issues in the region.",
     str2cp "Experts note that such developments often require careful analysis to understand their full implications.",
     str2cp "Historical precedents suggest that resolution of such matters typically involves multiple stakeholders working together."]
  | .details =>
    [str2cp "Witness accounts and official reports are being carefully reviewed to establish an accurate timeline of events.",
     str2cp "The complexity of the situation has required coordination between various agencies and departments.",
     str2cp "Technical specialists have been brought in to assist with the investigation and ensure all relevant evidence is properly examined."]
  | .conclusion =>
    [str2cp "The full impact of these developments is expected to become clearer in the coming days.",
     str2cp "Stakeholders are expected to meet regularly to monitor progress and coordinate their responses."]

/-- `expand_paragraph` (news_generator.py:1062-1100): the base content plus
the sentences chosen by `random.sample` (the `sample` oracle), each appended
after a space. -/
def expand_paragraph (sample : List PyStr → List PyStr) (base : PyStr)
    (ptype : ParagraphType) : PyStr :=
  (sample (additional_sentences ptype)).foldl (fun acc s => acc ++ 32 :: s) base

/-- `generate_expanded_contextual_lead` (news_generator.py:1102-1126). -/
def generate_expanded_contextual_lead (title : PyStr) : PyStr :=
  let tl := title.map toLowerCP
  if titleHas title "police" || titleHas title "investigation" then
    str2cp "Law enforcement officials are investigating " ++ tl ++
    str2cp ", according to sources familiar with the matter." ++
    str2cp " The investigation marks a significant development in the ongoing case, with multiple departments coordinating their efforts. Senior investigators have been assigned to oversee the inquiry, which is being conducted with urgency given the public interest. Officials have indicated that all available resources are being deployed to ensure a thorough and comprehensive investigation. The case has been classified as high priority, with regular briefings scheduled to keep stakeholders informed of progress."
  else if titleHas title "dead" || titleHas title "killed" || titleHas title "died" then
    str2cp "Multiple fatalities have been reported in an incident involving " ++ tl ++ str2cp "." ++
    str2cp " Emergency services responded to the scene as authorities work to determine the full scope of the situation. First responders arrived within minutes of receiving the initial emergency calls, immediately securing the area and beginning rescue operations. Medical personnel worked tirelessly to provide assistance while law enforcement established a perimeter to preserve evidence. The incident has prompted an immediate review of emergency response protocols and safety measures."
  else if titleHas title "government" || titleHas title "minister" || titleHas title "president" then
    str2cp "Senior government officials are addressing " ++ tl ++
    str2cp ", marking a significant policy development." ++
    str2cp " The announcement comes amid ongoing discussions about the issue and represents a major shift in official policy. Cabinet members have been briefed extensively on the implications of this decision, with inter-departmental consultations continuing. The timing of this announcement reflects careful consideration of various factors, including public opinion and expert recommendations. Officials have emphasized their commitment to transparency throughout the implementation process."
  else if titleHas title "court" || titleHas title "trial" || titleHas title "lawsuit" then
    str2cp "Legal proceedings are underway regarding " ++ tl ++ str2cp "." ++
    str2cp " The court case has drawn attention from legal experts and could set important precedents for future similar cases. Both prosecution and defense teams have been preparing extensively, with numerous pre-trial motions filed over recent weeks. The judge has emphasized the importance of conducting a fair and thorough hearing, with strict adherence to legal procedures. Court officials have implemented additional security measures given the high level of public interest in the case."
  else
    str2cp "Authorities are responding to developments involving " ++ tl ++ str2cp "." ++
    str2cp " The situation has prompted immediate action from relevant agencies and continues to evolve as new information becomes available. Multiple departments are coordinating their response efforts to ensure all necessary measures are implemented effectively. Officials have established a command center to oversee operations and maintain regular communication with all stakeholders. The public is being kept informed through regular updates as the situation develops."

/-- Decimal rendering of a number, for Python f-string interpolation of ints. -/
def natToDec (n : Nat) : PyStr := (toString n).data.map Char.toNat

/-- `generate_expanded_contextual_background` (news_generator.py:1128-1139). -/
def generate_expanded_contextual_background (research : WebsiteContent) : PyStr :=
  str2cp "The incident has raised questions about broader systemic issues and safety protocols." ++
  (if !research.isEmpty then
    str2cp " Reports from " ++ natToDec research.length ++
    str2cp " different news sources have provided varying perspectives on the developing situation, highlighting the complexity of the issues involved. Journalists and analysts have been working to piece together a comprehensive understanding of the events, drawing on multiple witness accounts and official statements. The coverage has revealed important details about the circumstances leading up to the incident, as well as the immediate response from authorities. Experts note that such multi-source reporting is crucial for establishing an accurate and complete picture of complex events."
  else
    str2cp " Officials are reviewing existing procedures to prevent similar occurrences in the future, with particular attention to identifying any gaps in current protocols. A comprehensive assessment is being conducted to examine all relevant policies and procedures, involving consultation with subject matter experts and stakeholders. The review process is expected to include recommendations for improvements and updates to existing guidelines. This systematic approach reflects the seriousness with which authorities are treating the situation and their commitment to preventing similar incidents.")

/-- `generate_expanded_detailed_analysis` (news_generator.py:1141-1155). -/
def generate_expanded_detailed_analysis (title : PyStr) : PyStr :=
  if titleHas title "police" || titleHas title "investigation" then
    str2cp "The investigation involves multiple departments working together to gather evidence and interview key witnesses, with coordination overseen by senior law enforcement officials. Forensic teams have been deployed to examine all available evidence, employing advanced techniques to ensure no crucial details are overlooked. Detectives are following up on leads provided by the public, with a dedicated tip line established to encourage community cooperation. The case has been assigned high priority status given its significant public interest, with additional resources allocated to support the investigation. Regular briefings are being held to ensure all team members are updated on the latest developments and can adjust their approach accordingly."
  else if titleHas title "dead" || titleHas title "killed" then
    str2cp "Emergency medical services arrived on scene within minutes of the initial reports, immediately beginning triage and treatment of injured individuals. Medical personnel worked systematically to treat the injured while law enforcement secured the area and began collecting evidence. The incident has prompted a comprehensive review of safety protocols and emergency response procedures, with particular focus on coordination between different response agencies. Medical examiners are conducting thorough investigations to determine exact causes and circumstances, working closely with law enforcement to ensure all evidence is properly documented. The response has demonstrated the importance of inter-agency cooperation and the value of regular emergency preparedness training."
  else if titleHas title "government" || titleHas title "policy" then
    str2cp "The policy changes come after months of consultation with stakeholders and expert analysis, reflecting careful consideration of various perspectives and potential impacts. Government officials have been working closely with various departments to ensure smooth implementation, establishing clear timelines and accountability measures. The new measures are expected to have wide-ranging implications across multiple sectors, with detailed impact assessments conducted to anticipate potential challenges. Consultation sessions have been held with industry representatives, advocacy groups, and subject matter experts to gather input and refine the proposed approach. Implementation will be phased to allow for adjustments based on initial results and feedback from affected parties."
  else
    str2cp "Experts are analyzing the full implications of these developments as more details emerge, drawing on their professional experience and knowledge of similar situations. The situation has prompted discussions among specialists about best practices and preventive measures, with particular attention to lessons learned from comparable incidents. Stakeholders are closely monitoring the evolving circumstances to assess potential impacts on their operations and constituencies. Technical consultants have been brought in to provide specialized expertise and ensure all relevant factors are properly considered. The collaborative approach reflects the complexity of the situation and the importance of bringing together diverse perspectives and expertise."

/-- `generate_expanded_official_response` (news_generator.py:1157-1171). -/
def generate_expanded_official_response (title : PyStr) : PyStr :=
  if titleHas title "police" then
    str2cp "Police officials have issued a statement emphasizing their commitment to a thorough and transparent investigation, outlining the specific steps being taken to ensure accountability. A spokesperson noted that all available resources are being deployed to ensure a comprehensive inquiry, including specialized units and external expertise where appropriate. The department has established a dedicated hotline for anyone with relevant information to contact investigators, staffed by trained personnel available around the clock. Senior officers are providing regular updates to department leadership and external oversight bodies to maintain transparency throughout the process. The police have also implemented additional community outreach measures to address public concerns and maintain trust during the investigation."
  else if titleHas title "government" || titleHas title "minister" then
    str2cp "Government representatives have addressed the matter in recent statements to the press, providing detailed information about their planned response and timeline for action. Officials emphasized their commitment to addressing public concerns and ensuring appropriate action is taken, with specific measures outlined to demonstrate accountability. A senior spokesperson indicated that further announcements will be made as the situation develops, with regular briefings scheduled to keep the public informed. Cabinet ministers have been briefed on the implications and have expressed their full support for the proposed course of action. The government has also established a dedicated communication strategy to ensure accurate information is provided to the public and media."
  else if titleHas title "court" || titleHas title "trial" then
    str2cp "Legal representatives from both sides have prepared extensive documentation for the proceedings, with teams of experienced attorneys working to present the strongest possible cases. Court officials have confirmed that all proper procedures are being followed to ensure a fair hearing, with additional measures implemented to accommodate the high level of public interest. The judge has emphasized the importance of allowing the legal process to proceed without outside interference, issuing clear guidelines for media coverage and public access. Security arrangements have been enhanced to ensure the safety of all participants and to maintain the dignity of the judicial process. Court administrators are working to ensure that scheduling accommodates the complexity of the case while maintaining efficiency."
  else
    str2cp "Officials have convened emergency meetings to address the developing situation and coordinate response efforts, bringing together representatives from all relevant agencies and departments. Relevant authorities are working together to ensure all necessary measures are implemented effectively, with clear communication channels established to facilitate coordination. Regular updates are being provided to keep the public informed of any significant developments, with designated spokespersons assigned to handle media inquiries. Emergency protocols have been activated where appropriate, ensuring that all response procedures are followed according to established guidelines. The coordinated approach reflects the seriousness of the situation and the commitment of authorities to providing an effective response."

/-- `generate_expanded_broader_context` (news_generator.py:1173-1187). -/
def generate_expanded_broader_context (title : PyStr) : PyStr :=
  if titleHas title "police" || titleHas title "investigation" then
    str2cp "This investigation takes place against a backdrop of increased public scrutiny of law enforcement practices, reflecting broader societal discussions about accountability and transparency. Recent cases have highlighted the importance of transparency and accountability in police operations, leading to reforms in many jurisdictions. Legal experts note that such investigations often lead to important reforms and improved protocols, benefiting both law enforcement agencies and the communities they serve. The case has attracted attention from civil rights organizations and police reform advocates, who are monitoring the proceedings closely. The outcome could influence future policies and procedures, potentially setting new standards for how similar cases are handled."
  else if titleHas title "international" || titleHas title "global" then
    str2cp "The international community is watching these developments closely as they may have broader implications for regional stability and international relations. Similar situations in other countries have demonstrated the importance of coordinated international responses, with lessons learned from previous experiences informing current approaches. Diplomatic observers note that the outcome could influence regional stability and international relations, particularly given the current global political climate. International organizations have expressed interest in the developments and have offered assistance where appropriate. The situation highlights the interconnected nature of modern global affairs and the importance of multilateral cooperation in addressing complex challenges."
  else if titleHas title "economic" || titleHas title "financial" then
    str2cp "Economic analysts are assessing the potential market implications of these developments, examining both short-term volatility and long-term structural impacts. The situation comes at a time when financial markets are already facing various global challenges, including ongoing concerns about inflation, trade relationships, and geopolitical tensions. Industry experts suggest that the long-term economic impact will depend on how quickly issues are resolved and what measures are implemented to address underlying concerns. Financial institutions are monitoring the situation closely and adjusting their risk assessments accordingly. The broader economic context includes considerations of supply chain stability, consumer confidence, and international trade relationships."
  else
    str2cp "These developments occur within a larger context of ongoing social and political changes, reflecting broader trends and challenges facing society. Observers note that such incidents often reflect broader systemic issues that require comprehensive solutions, involving multiple stakeholders and long-term commitment. The situation has prompted renewed discussions about the need for policy reforms and institutional improvements, with calls for more proactive approaches to preventing similar issues. Academic researchers and policy experts are analyzing the implications for future governance and institutional effectiveness. The broader context includes considerations of public trust, institutional capacity, and the evolving relationship between government and civil society."

/-- `generate_expanded_contextual_conclusion` (news_generator.py:1189-1200). -/
def generate_expanded_contextual_conclusion (title : PyStr) : PyStr :=
  if titleHas title "investigation" || titleHas title "police" then
    str2cp "The investigation remains ongoing, with authorities pledging to pursue all available leads and ensure a comprehensive examination of all evidence. Officials have asked anyone with information to come forward to assist in the inquiry, emphasizing that community cooperation is essential for achieving a successful resolution. Regular updates will be provided to the public as the investigation progresses, with transparency maintained throughout the process. The case is expected to continue for several weeks as investigators work methodically through all aspects of the matter."
  else if titleHas title "trial" || titleHas title "court" then
    str2cp "The legal proceedings are expected to continue over the coming weeks, with both sides presenting detailed arguments and evidence. Both prosecution and defense teams are preparing their cases as the judicial process moves forward, with additional hearings scheduled to address various aspects of the matter. The court has established a comprehensive schedule to ensure all parties have adequate time to present their positions. A verdict is anticipated following the completion of all scheduled proceedings and deliberations."
  else
    str2cp "Authorities continue to monitor the situation closely, maintaining readiness to respond to any new developments or changing circumstances. Further updates are expected as more information becomes available from official sources, with regular assessments conducted to evaluate progress. The commitment to transparency and public communication remains a priority throughout the ongoing response efforts. Stakeholders are expected to continue their collaborative approach as the situation evolves and new challenges emerge."

/-- `generate_authentic_news_content` (news_generator.py:965-1008): the six
article paragraphs.  Slots 1-3 use extracted content only when it is truthy
and passes `is_fallback_content`; slots 4-6 are always templated. -/
def generate_authentic_news_content (sample : List PyStr → List PyStr)
    (title : PyStr) (research : WebsiteContent) : List PyStr :=
  let d := extract_key_details research
  let p1 :=
    match d.lead_info with
    | some c =>
      if c ≠ [] ∧ !(is_fallback_content c) then expand_paragraph sample c .lead
      else generate_expanded_contextual_lead title
    | none => generate_expanded_contextual_lead title
  let p2 :=
    match d.background with
    | some c =>
      if c ≠ [] ∧ !(is_fallback_content c) then expand_paragraph sample c .background
      else generate_expanded_contextual_background research
    | none => generate_expanded_contextual_background research
  let p3 :=
    match d.additional_content with
    | some c =>
      if c ≠ [] ∧ !(is_fallback_content c) then expand_paragraph sample c .details
      else generate_expanded_detailed_analysis title
    | none => generate_expanded_detailed_analysis title
  let p4 := generate_expanded_official_response title
  let p5 := generate_expanded_broader_context title
  let p6 := generate_expanded_contextual_conclusion title
  [p1, p2, p3, p4, p5, p6].take 6

/-- `generate_contextual_lead` (news_generator.py:1241-1254). -/
def generate_contextual_lead (title : PyStr) : PyStr :=
  let tl := title.map toLowerCP
  if titleHas title "police" || titleHas title "investigation" then
    str2cp "Law enforcement officials are investigating " ++ tl ++
    str2cp ", according to sources familiar with the matter. The investigation marks a significant development in the ongoing case."
  else if titleHas title "dead" || titleHas title "killed" || titleHas title "died" then
    str2cp "Multiple fatalities have been reported in an incident involving " ++ tl ++
    str2cp ". Emergency services responded to the scene as authorities work to determine the full scope of the situation."
  else if titleHas title "government" || titleHas title "minister" || titleHas title "president" then
    str2cp "Senior government officials are addressing " ++ tl ++
    str2cp ", marking a significant policy development. The announcement comes amid ongoing discussions about the issue."
  else if titleHas title "court" || titleHas title "trial" || titleHas title "lawsuit" then
    str2cp "Legal proceedings are underway regarding " ++ tl ++
    str2cp ". The court case has drawn attention from legal experts and could set important precedents."
  else
    str2cp "Authorities are responding to developments involving " ++ tl ++
    str2cp ". The situation has prompted immediate action from relevant agencies and continues to evolve."

/-- `generate_lead_section` (news_generator.py:1339-1356), as the text of the
lead paragraph (the HTML wrapper and `html.escape` are omitted; no marker or
blocklist phrase contains an escapable character).  The first scraped line
longer than 100 characters that is not generic is used verbatim (truncated at
300); only if none exists is the contextual lead generated. -/
def generate_lead_section (title : PyStr) (research : WebsiteContent) : PyStr :=
  match firstSubstantial 100 300 (allContent research) with
  | some c => c
  | none => generate_contextual_lead title

/-- The source-attribution cards of `create_structured_article`
(news_generator.py:878-908), by domain: one card per entry of
`website_content`, or the three static fallback sources when it is empty. -/
def structured_article_source_domains (research : WebsiteContent) : List PyStr :=
  if research.isEmpty then [str2cp "BBC News", str2cp "Reuters", str2cp "Associated Press"]
  else research.map Prod.fst

/-! ### Specification measures and concrete inputs used by the theorems -/

/-- Specification measure: the number of distinct normalized keys outside the
ledger in a candidate stream (first occurrences counted once, mirroring the
acceptance order of the dedup loops). -/
def countNewKeys (daily : List PyStr) : List PyStr → List PyStr → Nat
  | _, [] => 0
  | seen, t :: ts =>
    let k := normalize_title t
    if k ∉ daily ∧ k ∉ seen then 1 + countNewKeys daily (k :: seen) ts
    else countNewKeys daily seen ts

/-- Specification predicate for the selected lines of the extractor (C9):
length in [30,500] and no boilerplate keyword, case-insensitively. -/
def goodLine (l : PyStr) : Prop :=
  30 ≤ l.length ∧ l.length ≤ 500 ∧ ∀ w ∈ skip_keywords, isSubstr w (l.map toLowerCP) = false

/-- Specification predicate for C10: every whitespace-separated token of the
lowercased title reduces, after removing non-word characters, to a stop word
or to nothing. -/
def fillerTokensOnly (t : PyStr) : Bool :=
  (splitWords (t.map toLowerCP)).all fun w =>
    decide ((w.filter isWordCharB) ∈ stop_words) || (w.filter isWordCharB).isEmpty

/-- A concrete page body used as a test input: two substantial lines and one
short one. -/
def sampleBody : PyStr :=
  str2cp "Officials said the announcement follows weeks of talks.\nShort.\nThe committee will publish the final framework document next month, pending review."

/-- A police-category topic title used as a concrete test input. -/
def policeTitle : PyStr := str2cp "Police Investigation Into Massive Corruption Network Expands"

/-- A research bundle whose single candidate URL failed extraction: its lines
are the category fallback produced for a `RequestException`. -/
def policeResearch : WebsiteContent :=
  [(str2cp "bbc.com", extract_first_three_lines (str2cp "bbc.com") .requestError (some policeTitle))]

end NewsGen

namespace NewsGen

/-! ## Claim C7: stale ledger dates load as empty -/

/-- C7: a ledger record persisted with date D yields its stored keys only when
loaded on date D; loaded on any other date D' ≠ D it yields zero keys. -/
theorem c7_stale_ledger_empty (today d : PyStr) (ts : List PyStr) (h : d ≠ today) :
    load_daily_topics today (.record (some d) ts) = .ok [] ∧
    load_daily_topics today (.record (some today) ts) = .ok ts := by
  constructor
  · simp [load_daily_topics, h]
  · simp [load_daily_topics]

/-- Witness for C7 at concrete dates. -/
theorem c7_stale_ledger_empty_witness :
    load_daily_topics (str2cp "2026-10-12")
        (.record (some (str2cp "2026-10-11")) [str2cp "k"]) = .ok [] ∧
    load_daily_topics (str2cp "2026-10-12")
        (.record (some (str2cp "2026-10-12")) [str2cp "k"]) = .ok [str2cp "k"] :=
  c7_stale_ledger_empty (str2cp "2026-10-12") (str2cp "2026-10-11") [str2cp "k"] (by decide)

/-! ## Claim C8: ledger loading is fail-open (corrected) -/

/-- C8 counterexample: an unreadable ledger file (e.g. a permission error on
`open()`) is not caught by the `except (json.JSONDecodeError,
FileNotFoundError)` clause, so `load_daily_topics` raises instead of
returning an empty key set. -/
theorem c8_unreadable_raises :
    load_daily_topics (str2cp "2026-10-12") .unreadable = .error .osError := rfl

/-- C8 amended: loading is fail-open for a missing file and for a file whose
content is not valid JSON — both yield the empty key set without raising;
an unreadable file or a JSON file whose top level is not an object raises. -/
theorem c8_missing_or_corrupt_loads_empty (today : PyStr) :
    load_daily_topics today .missing = .ok [] ∧
    load_daily_topics today .invalidJson = .ok [] ∧
    load_daily_topics today .nonObjectJson = .error .attributeError :=
  ⟨rfl, rfl, rfl⟩

/-! ## Claim C2: normalize_title totality and idempotence (corrected) -/

/-- C2 counterexample: `normalize_title` is not idempotent.  Sorting can move
the token `breaking` to the front of the key ("zz breaking" normalizes to
"breaking zz"), and a second application then strips it as a label prefix,
yielding "zz". -/
theorem c2_not_idempotent :
    normalize_title (normalize_title (str2cp "zz breaking")) ≠
      normalize_title (str2cp "zz breaking") := by decide

/-! ## Claim C10: filler-only titles and the empty key (corrected) -/

/-- C10 counterexample: a title composed solely of label prefixes and
punctuation need not normalize to the empty string — the prefix patterns are
applied once each in a fixed order, so "update: breaking:" keeps the token
`breaking` (the `breaking` pattern ran before `update:` was stripped). -/
theorem c10_label_only_title_nonempty :
    normalize_title (str2cp "update: breaking:") = str2cp "breaking" := by decide

/-! ## Claim C1: selector output (corrected) -/

/-- C1 counterexample: the selector output is not always pairwise distinct
under `normalize_title`.  Two expanded-search entries with the same key are
both accepted, because `get_expanded_news_topics` checks candidates against
`seen_titles` without recording them there. -/
theorem c1_expanded_duplicates :
    ¬ ((get_trending_topics 2 [] []
          [str2cp "aaaa bbbb cccc!", str2cp "aaaa bbbb cccc?"]
          (str2cp "October 12, 2026")).map normalize_title).Nodup := by decide

/-! ## Claim C3: the cascade and the emergency tier (corrected) -/

/-- C3 counterexample: the emergency tier is consulted only when zero topics
were found.  With one fresh raw candidate, an exhausted expanded search and a
fully consumed fallback pool, the cascade returns 1 < 2 topics even though an
emergency template with a fresh key exists. -/
theorem c3_partial_fill_no_emergency :
    (get_trending_topics 2 (fallback_titles.map normalize_title)
        [str2cp "Zebra Migration Patterns Shift Across Serengeti Plains"] []
        (str2cp "October 12, 2026")).length = 1 ∧
    (∃ e ∈ emergency_templates (str2cp "October 12, 2026"),
        normalize_title e ∉ fallback_titles.map normalize_title) := by decide

/-! ## Claim C4: fallback markers in the lead slot (corrected) -/

/-- C4 counterexample: `generate_lead_section` filters candidate lines only
through `is_generic_content`, never `is_fallback_content`, so a line carrying
a fallback marker phrase is placed verbatim in the article's lead section. -/
theorem c4_marker_in_lead_section :
    is_fallback_content (generate_lead_section policeTitle policeResearch) = true ∧
    generate_lead_section policeTitle policeResearch ≠ generate_contextual_lead policeTitle := by
  decide

/-! ## Generic helpers -/

theorem ne_nil_of_append_left {α : Type} {a b : List α} (h : a ≠ []) : a ++ b ≠ [] := by
  intro hab
  exact h (List.append_eq_nil.mp hab).1

theorem foldl_space_append_ne_nil (l : List PyStr) :
    ∀ acc : PyStr, acc ≠ [] → l.foldl (fun a s => a ++ 32 :: s) acc ≠ [] := by
  induction l with
  | nil => exact fun _ h => h
  | cons s l ih =>
    intro acc h
    exact ih _ (ne_nil_of_append_left h)

theorem expand_paragraph_ne_nil (sample : List PyStr → List PyStr) (base : PyStr)
    (pt : ParagraphType) (h : base ≠ []) : expand_paragraph sample base pt ≠ [] :=
  foldl_space_append_ne_nil _ _ h

/-! ## Non-emptiness of the templated paragraph generators -/

theorem generate_expanded_contextual_lead_ne_nil (title : PyStr) :
    generate_expanded_contextual_lead title ≠ [] := by
  unfold generate_expanded_contextual_lead
  split_ifs <;>
    exact ne_nil_of_append_left (ne_nil_of_append_left (ne_nil_of_append_left (by decide)))

theorem generate_expanded_contextual_background_ne_nil (research : WebsiteContent) :
    generate_expanded_contextual_background research ≠ [] := by
  unfold generate_expanded_contextual_background
  exact ne_nil_of_append_left (by decide)

theorem generate_expanded_detailed_analysis_ne_nil (title : PyStr) :
    generate_expanded_detailed_analysis title ≠ [] := by
  unfold generate_expanded_detailed_analysis
  split_ifs <;> decide

theorem generate_expanded_official_response_ne_nil (title : PyStr) :
    generate_expanded_official_response title ≠ [] := by
  unfold generate_expanded_official_response
  split_ifs <;> decide

theorem generate_expanded_broader_context_ne_nil (title : PyStr) :
    generate_expanded_broader_context title ≠ [] := by
  unfold generate_expanded_broader_context
  split_ifs <;> decide

theorem generate_expanded_contextual_conclusion_ne_nil (title : PyStr) :
    generate_expanded_contextual_conclusion title ≠ [] := by
  unfold generate_expanded_contextual_conclusion
  split_ifs <;> decide

/-- The six article paragraphs: slots 4-6 are the fixed templated generators,
and slots 1-3 are non-empty whatever the research bundle holds. -/
theorem generate_authentic_structure (sample : List PyStr → List PyStr) (title : PyStr)
    (research : WebsiteContent) :
    ∃ p1 p2 p3, generate_authentic_news_content sample title research =
      [p1, p2, p3, generate_expanded_official_response title,
       generate_expanded_broader_context title,
       generate_expanded_contextual_conclusion title] ∧
      p1 ≠ [] ∧ p2 ≠ [] ∧ p3 ≠ [] := by
  unfold generate_authentic_news_content
  refine ⟨_, _, _, rfl, ?_, ?_, ?_⟩
  · cases hd : (extract_key_details research).lead_info with
    | none => simpa [hd] using generate_expanded_contextual_lead_ne_nil title
    | some c =>
      simp only [hd]
      split_ifs with hc
      · exact expand_paragraph_ne_nil sample c .lead hc.1
      · exact generate_expanded_contextual_lead_ne_nil title
  · cases hd : (extract_key_details research).background with
    | none => simpa [hd] using generate_expanded_contextual_background_ne_nil research
    | some c =>
      simp only [hd]
      split_ifs with hc
      · exact expand_paragraph_ne_nil sample c .background hc.1
      · exact generate_expanded_contextual_background_ne_nil research
  · cases hd : (extract_key_details research).additional_content with
    | none => simpa [hd] using generate_expanded_detailed_analysis_ne_nil title
    | some c =>
      simp only [hd]
      split_ifs with hc
      · exact expand_paragraph_ne_nil sample c .details hc.1
      · exact generate_expanded_detailed_analysis_ne_nil title

/-- C6 amended: the synthesizer always returns exactly six non-empty
paragraphs, and the attribution list has one entry per domain present in the
research bundle (whether or not extraction succeeded there), falling back to
the three static sources only when the bundle has no domains at all. -/
theorem c6_synthesizer_amended (sample : List PyStr → List PyStr) (title : PyStr)
    (research : WebsiteContent) :
    (generate_authentic_news_content sample title research).length = 6 ∧
    (∀ p ∈ generate_authentic_news_content sample title research, p ≠ []) ∧
    structured_article_source_domains research =
      (if research.isEmpty then [str2cp "BBC News", str2cp "Reuters", str2cp "Associated Press"]
       else research.map Prod.fst) := by
  obtain ⟨p1, p2, p3, heq, h1, h2, h3⟩ := generate_authentic_structure sample title research
  refine ⟨by rw [heq]; rfl, ?_, rfl⟩
  rw [heq]
  intro p hp
  simp only [List.mem_cons, List.not_mem_nil, or_false] at hp
  rcases hp with rfl | rfl | rfl | rfl | rfl | rfl
  · exact h1
  · exact h2
  · exact h3
  · exact generate_expanded_official_response_ne_nil title
  · exact generate_expanded_broader_context_ne_nil title
  · exact generate_expanded_contextual_conclusion_ne_nil title

/-- C4 amended, positive half: in `generate_authentic_news_content` a lead
candidate that is absent, empty, or carries a fallback-marker phrase is
replaced by the fully templated category lead. -/
theorem c4_lead_guard_amended (sample : List PyStr → List PyStr) (title : PyStr)
    (research : WebsiteContent)
    (h : (match (extract_key_details research).lead_info with
          | none => true
          | some c => is_fallback_content c || c.isEmpty) = true) :
    (generate_authentic_news_content sample title research).head? =
      some (generate_expanded_contextual_lead title) := by
  have hhead : (generate_authentic_news_content sample title research).head? = some (
      match (extract_key_details research).lead_info with
      | some c =>
        if c ≠ [] ∧ !(is_fallback_content c) then expand_paragraph sample c .lead
        else generate_expanded_contextual_lead title
      | none => generate_expanded_contextual_lead title) := rfl
  rw [hhead]
  cases hd : (extract_key_details research).lead_info with
  | none => rfl
  | some c =>
    rw [hd] at h
    simp only [Bool.or_eq_true] at h
    show some (if c ≠ [] ∧ (!is_fallback_content c) = true then
        expand_paragraph sample c ParagraphType.lead
      else generate_expanded_contextual_lead title) =
      some (generate_expanded_contextual_lead title)
    split_ifs with hc
    · exfalso
      rcases h with h | h
      · simp [h] at hc
      · exact hc.1 (List.isEmpty_iff.mp h)
    · rfl

/-- Witness for C4 amended at the police research bundle: the failed-URL
extract carries a marker, so the body lead paragraph is the template. -/
theorem c4_lead_guard_amended_witness :
    (generate_authentic_news_content (fun l => l.take 2) policeTitle policeResearch).head? =
      some (generate_expanded_contextual_lead policeTitle) :=
  c4_lead_guard_amended (fun l => l.take 2) policeTitle policeResearch (by decide)

/-! ## Claim C5: extraction failure routing (corrected) -/

/-- The category fallback generator always emits exactly three lines. -/
theorem generate_fallback_content_length (netloc : PyStr) (topic : Option PyStr) :
    (generate_fallback_content_for_topic netloc topic).length = 3 := by
  cases topic with
  | none => rfl
  | some title =>
    unfold generate_fallback_content_for_topic
    split <;> first | rfl | (split_ifs <;> rfl)

/-- C5 amended: `extract_first_three_lines` never raises and always yields
between one and three lines; `RequestException`s (including non-success HTTP
statuses) and other exceptions route to the category fallback generator,
while timeouts, non-hypertext content types and empty extraction results
yield fixed three-line notices of their own. -/
theorem c5_extraction_amended :
    (∀ netloc fetch topic, 1 ≤ (extract_first_three_lines netloc fetch topic).length ∧
        (extract_first_three_lines netloc fetch topic).length ≤ 3) ∧
    (∀ netloc topic, extract_first_three_lines netloc .requestError topic =
        generate_fallback_content_for_topic netloc topic) ∧
    (∀ netloc topic, extract_first_three_lines netloc .otherError topic =
        generate_fallback_content_for_topic netloc topic) ∧
    (∀ netloc topic, (generate_fallback_content_for_topic netloc topic).length = 3) := by
  refine ⟨?_, fun _ _ => rfl, fun _ _ => rfl, generate_fallback_content_length⟩
  intro netloc fetch topic
  cases fetch with
  | timeout =>
    have h : (extract_first_three_lines netloc .timeout topic).length = 3 := rfl
    omega
  | requestError =>
    have h : (extract_first_three_lines netloc .requestError topic).length = 3 :=
      generate_fallback_content_length netloc topic
    omega
  | otherError =>
    have h : (extract_first_three_lines netloc .otherError topic).length = 3 :=
      generate_fallback_content_length netloc topic
    omega
  | success contentType body =>
    unfold extract_first_three_lines
    by_cases hh : isSubstr (str2cp "html") (contentType.map toLowerCP) = true
    · simp only [hh, Bool.not_true, Bool.false_eq_true, if_false]
      by_cases hm :
          (meaningfulLoop (((splitOnNl body).map pyStrip).filter (fun l => !l.isEmpty)) []).isEmpty = true
      · simp [hm]
      · simp only [hm, Bool.false_eq_true, if_false]
        have hlen := List.length_take 3
          (meaningfulLoop (((splitOnNl body).map pyStrip).filter (fun l => !l.isEmpty)) [])
        have hne : (meaningfulLoop (((splitOnNl body).map pyStrip).filter (fun l => !l.isEmpty)) []) ≠ [] := by
          intro h0
          rw [h0] at hm
          exact hm rfl
        have hpos := List.length_pos.mpr hne
        omega
    · simp only [Bool.not_eq_true] at hh
      simp [hh]

/-- C5 counterexample: a timeout does not route to the category fallback
generator; it yields a fixed three-line timeout notice instead. -/
theorem c5_timeout_not_category_fallback :
    extract_first_three_lines (str2cp "bbc.com") .timeout (some policeTitle) ≠
      generate_fallback_content_for_topic (str2cp "bbc.com") (some policeTitle) := by decide

/-! ## Selector loop invariants -/

theorem countNewKeys_congr (daily : List PyStr) :
    ∀ ts s1 s2, (∀ k, k ∈ s1 ↔ k ∈ s2) →
      countNewKeys daily s1 ts = countNewKeys daily s2 ts := by
  intro ts
  induction ts with
  | nil => intro s1 s2 _; rfl
  | cons t ts ih =>
    intro s1 s2 h
    simp only [countNewKeys]
    by_cases hc : normalize_title t ∉ daily ∧ normalize_title t ∉ s1
    · rw [if_pos hc, if_pos ⟨hc.1, fun hm => hc.2 ((h _).mpr hm)⟩]
      refine congrArg _ (ih _ _ ?_)
      intro k
      simp only [List.mem_cons]
      rw [h k]
    · have hc2 : ¬(normalize_title t ∉ daily ∧ normalize_title t ∉ s2) := by
        intro hx
        exact hc ⟨hx.1, fun hm => hx.2 ((h _).mp hm)⟩
      rw [if_neg hc, if_neg hc2]
      exact ih _ _ h

/-- Full invariant of the primary dedup loop: `seen_titles` mirrors the keys
of the accepted topics, those keys stay duplicate-free and outside the
ledger, and the number of accepted topics is exactly
`min num (already accepted + fresh distinct keys remaining)`. -/
theorem primaryDedup_spec (num : Nat) (daily : List PyStr) :
    ∀ ts seen acc,
      seen = acc.map normalize_title →
      seen.Nodup →
      (∀ t ∈ acc, normalize_title t ∉ daily) →
      acc.length ≤ num →
      (primaryDedup num daily ts seen acc).1 =
          (primaryDedup num daily ts seen acc).2.map normalize_title ∧
      (primaryDedup num daily ts seen acc).1.Nodup ∧
      (∀ t ∈ (primaryDedup num daily ts seen acc).2, normalize_title t ∉ daily) ∧
      (primaryDedup num daily ts seen acc).2.length =
          min num (acc.length + countNewKeys daily seen ts) := by
  intro ts
  induction ts with
  | nil =>
    intro seen acc hseen hnd hfresh hlen
    refine ⟨hseen, hnd, hfresh, ?_⟩
    simp only [primaryDedup, countNewKeys]
    omega
  | cons t ts ih =>
    intro seen acc hseen hnd hfresh hlen
    by_cases hc : normalize_title t ∉ seen ∧ normalize_title t ∉ daily ∧ acc.length < num
    · have heq : primaryDedup num daily (t :: ts) seen acc =
          primaryDedup num daily ts (seen ++ [normalize_title t]) (acc ++ [t]) := by
        simp only [primaryDedup]
        rw [if_pos hc]
      rw [heq]
      have hseen' : seen ++ [normalize_title t] = (acc ++ [t]).map normalize_title := by
        simp [hseen]
      have hnd' : (seen ++ [normalize_title t]).Nodup := by
        rw [List.nodup_append]
        refine ⟨hnd, List.nodup_singleton _, ?_⟩
        intro a ha hb
        simp only [List.mem_singleton] at hb
        exact hc.1 (hb ▸ ha)
      have hfresh' : ∀ x ∈ acc ++ [t], normalize_title x ∉ daily := by
        intro x hx
        rcases List.mem_append.mp hx with hx | hx
        · exact hfresh x hx
        · simp only [List.mem_singleton] at hx
          subst hx
          exact hc.2.1
      have hlen' : (acc ++ [t]).length ≤ num := by
        simp only [List.length_append, List.length_singleton]
        omega
      obtain ⟨a, b, c2, d⟩ := ih (seen ++ [normalize_title t]) (acc ++ [t]) hseen' hnd' hfresh' hlen'
      refine ⟨a, b, c2, ?_⟩
      rw [d]
      have hcount : countNewKeys daily seen (t :: ts) =
          1 + countNewKeys daily (normalize_title t :: seen) ts := by
        simp only [countNewKeys]
        rw [if_pos ⟨hc.2.1, hc.1⟩]
      have hcong : countNewKeys daily (normalize_title t :: seen) ts =
          countNewKeys daily (seen ++ [normalize_title t]) ts := by
        refine countNewKeys_congr daily ts _ _ ?_
        intro k
        simp only [List.mem_cons, List.mem_append, List.mem_singleton, List.not_mem_nil, or_false]
        exact or_comm
      rw [hcount, hcong]
      simp only [List.length_append, List.length_singleton]
      omega
    · have heq : primaryDedup num daily (t :: ts) seen acc = primaryDedup num daily ts seen acc := by
        simp only [primaryDedup]
        rw [if_neg hc]
      rw [heq]
      obtain ⟨a, b, c2, d⟩ := ih seen acc hseen hnd hfresh hlen
      refine ⟨a, b, c2, d.trans ?_⟩
      by_cases h1 : normalize_title t ∉ daily ∧ normalize_title t ∉ seen
      · have hcap : ¬ acc.length < num := fun hlt => hc ⟨h1.2, h1.1, hlt⟩
        have hcnt : countNewKeys daily seen (t :: ts) =
            1 + countNewKeys daily (normalize_title t :: seen) ts := by
          simp only [countNewKeys]
          rw [if_pos h1]
        rw [hcnt]
        omega
      · have hcnt : countNewKeys daily seen (t :: ts) = countNewKeys daily seen ts := by
          simp only [countNewKeys]
          rw [if_neg h1]
        rw [hcnt]

theorem expandedLoop_fresh (numNeeded : Nat) (daily seen : List PyStr) :
    ∀ es acc, (∀ t ∈ acc, normalize_title t ∉ daily) →
      ∀ t ∈ expandedLoop numNeeded daily seen es acc, normalize_title t ∉ daily := by
  intro es
  induction es with
  | nil => intro acc h; exact h
  | cons e es ih =>
    intro acc h
    simp only [expandedLoop]
    split_ifs with h1 h2
    · exact h
    · refine ih _ ?_
      intro x hx
      rcases List.mem_append.mp hx with hx | hx
      · exact h x hx
      · simp only [List.mem_singleton] at hx
        subst hx
        exact h2.1
    · exact ih _ h

theorem expandedAppend_snd_fresh (num : Nat) (daily : List PyStr) :
    ∀ ts seen acc, (∀ t ∈ acc, normalize_title t ∉ daily) →
      (∀ t ∈ ts, normalize_title t ∉ daily) →
      ∀ t ∈ (expandedAppend num ts seen acc).2, normalize_title t ∉ daily := by
  intro ts
  induction ts with
  | nil => intro seen acc h _; exact h
  | cons e ts ih =>
    intro seen acc h hts
    simp only [expandedAppend]
    split_ifs with h1
    · exact h
    · refine ih _ _ ?_ (fun x hx => hts x (List.mem_cons_of_mem _ hx))
      intro x hx
      rcases List.mem_append.mp hx with hx | hx
      · exact h x hx
      · simp only [List.mem_singleton] at hx
        subst hx
        exact hts x (List.mem_cons_self _ _)

theorem fallbackAppend_snd_fresh (num : Nat) (daily : List PyStr) :
    ∀ ts seen acc, (∀ t ∈ acc, normalize_title t ∉ daily) →
      ∀ t ∈ (fallbackAppend num daily ts seen acc).2, normalize_title t ∉ daily := by
  intro ts
  induction ts with
  | nil => intro seen acc h; exact h
  | cons e ts ih =>
    intro seen acc h
    simp only [fallbackAppend]
    split_ifs with h1 h2
    · exact h
    · refine ih _ _ ?_
      intro x hx
      rcases List.mem_append.mp hx with hx | hx
      · exact h x hx
      · simp only [List.mem_singleton] at hx
        subst hx
        exact h2.2
    · exact ih _ _ h

theorem emergencyLoop_fresh (num : Nat) (daily : List PyStr) :
    ∀ tpls seen acc, (∀ t ∈ acc, normalize_title t ∉ daily) →
      ∀ t ∈ emergencyLoop num daily tpls seen acc, normalize_title t ∉ daily := by
  intro tpls
  induction tpls with
  | nil => intro seen acc h; exact h
  | cons e tpls ih =>
    intro seen acc h
    simp only [emergencyLoop]
    split_ifs with h1 h2
    · exact h
    · refine ih _ _ ?_
      intro x hx
      rcases List.mem_append.mp hx with hx | hx
      · exact h x hx
      · simp only [List.mem_singleton] at hx
        subst hx
        exact h2.1
    · exact ih _ _ h

/-- Every topic returned by the cascade has a key outside today's ledger. -/
theorem get_trending_topics_fresh (num : Nat) (daily : List PyStr)
    (raw ee : List PyStr) (dateStr : PyStr) :
    ∀ t ∈ get_trending_topics num daily raw ee dateStr, normalize_title t ∉ daily := by
  intro t ht
  unfold get_trending_topics at ht
  simp only [] at ht
  replace ht := List.mem_of_mem_take ht
  have hs1 := primaryDedup_spec num daily raw [] [] rfl List.nodup_nil (by simp) (by simp)
  split_ifs at ht
  all_goals first
    | exact hs1.2.2.1 t ht
    | exact emergencyLoop_fresh num daily _ [] [] (by simp) t ht
    | exact fallbackAppend_snd_fresh num daily _ _ _
        (expandedAppend_snd_fresh num daily _ _ _ hs1.2.2.1
          (expandedLoop_fresh _ daily _ ee [] (by simp))) t ht
    | exact expandedAppend_snd_fresh num daily _ _ _ hs1.2.2.1
        (expandedLoop_fresh _ daily _ ee [] (by simp)) t ht

/-- C1 amended: the selector returns at most `num` topics and never a topic
whose key is in today's ledger; when the raw candidate stream alone holds at
least `num` distinct keys outside the ledger, it returns exactly `num`
topics, pairwise distinct under `normalize_title`. -/
theorem c1_selector_amended (num : Nat) (daily : List PyStr)
    (raw ee : List PyStr) (dateStr : PyStr) :
    ((get_trending_topics num daily raw ee dateStr).length ≤ num ∧
      ∀ t ∈ get_trending_topics num daily raw ee dateStr, normalize_title t ∉ daily) ∧
    (num ≤ countNewKeys daily [] raw →
      (get_trending_topics num daily raw ee dateStr).length = num ∧
      ((get_trending_topics num daily raw ee dateStr).map normalize_title).Nodup) := by
  constructor
  · exact ⟨List.length_take_le _ _, get_trending_topics_fresh num daily raw ee dateStr⟩
  · intro hcnt
    have hs1 := primaryDedup_spec num daily raw [] [] rfl List.nodup_nil (by simp) (by simp)
    have hlen1 : (primaryDedup num daily raw [] []).2.length = num := by
      rw [hs1.2.2.2]
      simp only [List.length_nil, Nat.zero_add]
      omega
    rcases Nat.eq_zero_or_pos num with hnum | hnum
    · subst hnum
      constructor
      · unfold get_trending_topics
        simp
      · unfold get_trending_topics
        simp
    · have hcond : ¬ (primaryDedup num daily raw [] []).2.length < num := by omega
      have hzero : ¬ (primaryDedup num daily raw [] []).2.length = 0 := by omega
      have heq : get_trending_topics num daily raw ee dateStr =
          (primaryDedup num daily raw [] []).2.take num := by
        unfold get_trending_topics
        simp only [if_neg hcond, if_neg hzero]
      rw [heq]
      constructor
      · rw [List.length_take]
        omega
      · have hnodup : ((primaryDedup num daily raw [] []).2.map normalize_title).Nodup := by
          rw [← hs1.1]
          exact hs1.2.1
        rw [List.map_take]
        exact hnodup.sublist (List.take_sublist _ _)

/-! ## Claim C3: the emergency tier (corrected, positive half) -/

theorem emergencyLoop_length_mono (num : Nat) (daily : List PyStr) :
    ∀ tpls seen acc, acc.length ≤ (emergencyLoop num daily tpls seen acc).length := by
  intro tpls
  induction tpls with
  | nil => intro seen acc; exact Nat.le_refl _
  | cons e tpls ih =>
    intro seen acc
    simp only [emergencyLoop]
    split_ifs with h1 h2
    · exact Nat.le_refl _
    · refine Nat.le_trans ?_ (ih _ _)
      simp
    · exact ih _ _

theorem emergencyLoop_ne_nil (num : Nat) (daily : List PyStr) (hnum : 1 ≤ num) :
    ∀ tpls seen acc,
      (∃ e ∈ tpls, normalize_title e ∉ daily ∧ normalize_title e ∉ seen) →
      1 ≤ (emergencyLoop num daily tpls seen acc).length := by
  intro tpls
  induction tpls with
  | nil =>
    intro seen acc h
    obtain ⟨e, he, _⟩ := h
    exact absurd he (List.not_mem_nil e)
  | cons e tpls ih =>
    intro seen acc h
    simp only [emergencyLoop]
    split_ifs with h1 h2
    · omega
    · refine Nat.le_trans ?_ (emergencyLoop_length_mono num daily tpls _ _)
      simp
    · obtain ⟨x, hx, hfr⟩ := h
      rcases List.mem_cons.mp hx with rfl | hx
      · exact absurd ⟨hfr.1, hfr.2⟩ h2
      · exact ih _ _ ⟨x, hx, hfr⟩

/-- C3 amended: when every other tier yields nothing — no raw candidates, no
expanded-search entries, every fallback title already in the ledger — and at
least one emergency template key is outside the ledger, the cascade returns
at least one topic (and at most `num`). -/
theorem c3_emergency_amended (num : Nat) (daily : List PyStr) (dateStr : PyStr)
    (hnum : 1 ≤ num)
    (hfb : ∀ f ∈ fallback_titles, normalize_title f ∈ daily)
    (hem : ∃ e ∈ emergency_templates dateStr, normalize_title e ∉ daily) :
    1 ≤ (get_trending_topics num daily [] [] dateStr).length ∧
    (get_trending_topics num daily [] [] dateStr).length ≤ num := by
  refine ⟨?_, List.length_take_le _ _⟩
  have hfil : fallback_titles.filter (fun t => decide (normalize_title t ∉ daily)) = [] := by
    rw [List.filter_eq_nil_iff]
    intro f hf
    simp only [decide_eq_true_eq, Decidable.not_not]
    exact hfb f hf
  have hfall : get_fallback_topics num daily = [] := by
    unfold get_fallback_topics
    rw [hfil, List.take_nil]
  have hun : get_trending_topics num daily [] [] dateStr =
      (create_emergency_topics num daily dateStr).take num := by
    unfold get_trending_topics
    simp only [primaryDedup, expandedLoop, expandedAppend, hfall, fallbackAppend]
    have h0 : (0 : Nat) < num := hnum
    simp [h0]
  rw [hun]
  have h1 : 1 ≤ (create_emergency_topics num daily dateStr).length := by
    unfold create_emergency_topics
    refine emergencyLoop_ne_nil num daily hnum _ [] [] ?_
    obtain ⟨e, he, hfr⟩ := hem
    exact ⟨e, he, hfr, List.not_mem_nil _⟩
  rw [List.length_take]
  omega

/-- Witness for C3 amended: the full fallback pool is stale, the date-stamped
emergency templates are fresh, and one topic is still produced. -/
theorem c3_emergency_amended_witness :
    1 ≤ (get_trending_topics 1 (fallback_titles.map normalize_title) [] []
        (str2cp "October 12, 2026")).length ∧
    (get_trending_topics 1 (fallback_titles.map normalize_title) [] []
        (str2cp "October 12, 2026")).length ≤ 1 :=
  c3_emergency_amended 1 (fallback_titles.map normalize_title) (str2cp "October 12, 2026")
    (by decide) (by decide) (by decide)

/-- Witness for C1 amended at a one-candidate stream. -/
theorem c1_selector_amended_witness :
    (get_trending_topics 1 [] [str2cp "Solar Probe Returns Stunning Images"] []
        (str2cp "October 12, 2026")).length = 1 ∧
    ((get_trending_topics 1 [] [str2cp "Solar Probe Returns Stunning Images"] []
        (str2cp "October 12, 2026")).map normalize_title).Nodup :=
  (c1_selector_amended 1 [] [str2cp "Solar Probe Returns Stunning Images"] []
    (str2cp "October 12, 2026")).2 (by decide)

/-! ## Claim C9: line selection of the extractor (confirmed) -/

theorem isSubstr_exists (p : PyStr) : ∀ s : PyStr,
    isSubstr p s = true ↔ ∃ n, (p.isPrefixOf (s.drop n)) = true := by
  intro s
  induction s with
  | nil =>
    simp only [isSubstr, Bool.or_false]
    constructor
    · intro h
      exact ⟨0, h⟩
    · rintro ⟨n, hn⟩
      simpa using hn
  | cons c t ih =>
    simp only [isSubstr, Bool.or_eq_true]
    constructor
    · rintro (h | h)
      · exact ⟨0, h⟩
      · obtain ⟨n, hn⟩ := ih.mp h
        exact ⟨n + 1, hn⟩
    · rintro ⟨n, hn⟩
      cases n with
      | zero => exact Or.inl hn
      | succ n => exact Or.inr (ih.mpr ⟨n, hn⟩)

theorem isSubstr_of_take (p s : PyStr) (n : Nat) (h : isSubstr p (s.take n) = true) :
    isSubstr p s = true := by
  rw [isSubstr_exists] at h ⊢
  obtain ⟨m, hm⟩ := h
  refine ⟨m, ?_⟩
  rw [List.drop_take] at hm
  have hpre : p <+: List.take (n - m) (s.drop m) := List.isPrefixOf_iff_prefix.mp hm
  exact List.isPrefixOf_iff_prefix.mpr (hpre.trans (List.take_prefix _ _))

theorem meaningfulLoop_spec :
    ∀ ls acc, acc.length ≤ 3 → (∀ l ∈ acc, goodLine l) →
      (meaningfulLoop ls acc).length ≤ 3 ∧ ∀ l ∈ meaningfulLoop ls acc, goodLine l := by
  intro ls
  induction ls with
  | nil => intro acc h1 h2; exact ⟨h1, h2⟩
  | cons l ls ih =>
    intro acc h1 h2
    simp only [meaningfulLoop]
    split_ifs with hc
    · refine ih _ ?_ ?_
      · simp only [List.length_append, List.length_singleton]
        omega
      · intro x hx
        rcases List.mem_append.mp hx with hx | hx
        · exact h2 x hx
        · simp only [List.mem_singleton] at hx
          rw [hx]
          obtain ⟨hlen1, hlen2, hkw, _⟩ := hc
          refine ⟨?_, ?_, ?_⟩
          · rw [List.length_take]
            omega
          · rw [List.length_take]
            omega
          · intro w hw
            have hfalse : isSubstr w (l.map toLowerCP) = false := by
              have := List.all_eq_true.mp hkw w hw
              simpa using this
            rw [List.map_take]
            cases hsub : isSubstr w (List.take 300 (l.map toLowerCP)) with
            | false => rfl
            | true =>
              rw [isSubstr_of_take _ _ _ hsub] at hfalse
              exact hfalse
    · exact ih _ h1 h2

/-- C9: on a successfully fetched HTML page the extractor keeps at most three
lines, every kept line has length within [30,500] and contains no
boilerplate-blocklist keyword, and (when any line qualifies) exactly these
lines are returned. -/
theorem c9_extraction_selection (netloc contentType body : PyStr) (topic : Option PyStr)
    (hhtml : isSubstr (str2cp "html") (contentType.map toLowerCP) = true) :
    (meaningfulLoop (((splitOnNl body).map pyStrip).filter (fun l => !l.isEmpty)) []).length ≤ 3 ∧
    (∀ l ∈ meaningfulLoop (((splitOnNl body).map pyStrip).filter (fun l => !l.isEmpty)) [],
        goodLine l) ∧
    (meaningfulLoop (((splitOnNl body).map pyStrip).filter (fun l => !l.isEmpty)) [] ≠ [] →
      extract_first_three_lines netloc (.success contentType body) topic =
        (meaningfulLoop (((splitOnNl body).map pyStrip).filter (fun l => !l.isEmpty)) []).take 3) := by
  obtain ⟨ha, hb⟩ := meaningfulLoop_spec
    (((splitOnNl body).map pyStrip).filter (fun l => !l.isEmpty)) [] (by simp) (by simp)
  refine ⟨ha, hb, ?_⟩
  intro hne
  unfold extract_first_three_lines
  simp only [hhtml, Bool.not_true, Bool.false_eq_true, if_false]
  rw [if_neg]
  intro h
  exact hne (List.isEmpty_iff.mp h)

/-- Witness for C9 at a concrete HTML page body. -/
theorem c9_extraction_selection_witness :
    (meaningfulLoop (((splitOnNl sampleBody).map pyStrip).filter (fun l => !l.isEmpty)) []).length ≤ 3 :=
  (c9_extraction_selection (str2cp "bbc.com") (str2cp "text/html") sampleBody none (by decide)).1

/-! ## Claim C6: paragraphs and attributions (corrected) -/

/-! ## String-pipeline lemmas for normalize_title (claims C2 and C10) -/

theorem toLowerCP_idem (c : Nat) : toLowerCP (toLowerCP c) = toLowerCP c := by
  unfold toLowerCP
  split_ifs <;> omega

theorem word_not_space {c : Nat} (h : isWordCharB c = true) : isSpaceB c = false := by
  simp only [isWordCharB, Bool.or_eq_true, Bool.and_eq_true, decide_eq_true_eq,
    beq_iff_eq] at h
  simp only [isSpaceB, Bool.or_eq_false_iff, beq_eq_false_iff_ne, ne_eq]
  omega

theorem splitOnSpace_ne_nil (s : PyStr) : splitOnSpace s ≠ [] := by
  cases s with
  | nil => simp [splitOnSpace]
  | cons c cs =>
    simp only [splitOnSpace]
    split_ifs
    · simp
    · cases h : splitOnSpace cs <;> simp

theorem splitOnSpace_cons_space {c : Nat} (h : isSpaceB c = true) (s : PyStr) :
    splitOnSpace (c :: s) = [] :: splitOnSpace s := by
  simp [splitOnSpace, h]

theorem splitOnSpace_cons_nonspace {c : Nat} (h : isSpaceB c = false) (s : PyStr) :
    splitOnSpace (c :: s) = (c :: (splitOnSpace s).headD []) :: (splitOnSpace s).tail := by
  simp only [splitOnSpace, h, Bool.false_eq_true, if_false]
  cases hs : splitOnSpace s with
  | nil => exact absurd hs (splitOnSpace_ne_nil s)
  | cons g gs => rfl

theorem splitOnSpace_headD (s : PyStr) :
    (splitOnSpace s).headD [] = s.takeWhile (fun c => !isSpaceB c) := by
  induction s with
  | nil => rfl
  | cons c cs ih =>
    cases h : isSpaceB c with
    | true =>
      rw [splitOnSpace_cons_space h]
      simp [List.takeWhile_cons, h]
    | false =>
      rw [splitOnSpace_cons_nonspace h]
      simp only [List.headD_cons, List.takeWhile_cons, h, Bool.not_false, if_true]
      rw [ih]

theorem headD_mem_splitOnSpace (s : PyStr) : (splitOnSpace s).headD [] ∈ splitOnSpace s := by
  cases hs : splitOnSpace s with
  | nil => exact absurd hs (splitOnSpace_ne_nil s)
  | cons g gs => simp

theorem mem_splitOnSpace (s : PyStr) :
    ∀ g ∈ splitOnSpace s, ∀ c ∈ g, c ∈ s ∧ isSpaceB c = false := by
  induction s with
  | nil =>
    intro g hg c hc
    simp only [splitOnSpace, List.mem_singleton] at hg
    subst hg
    simp at hc
  | cons a as ih =>
    intro g hg c hc
    cases h : isSpaceB a with
    | true =>
      rw [splitOnSpace_cons_space h] at hg
      rcases List.mem_cons.mp hg with rfl | hg
      · simp at hc
      · obtain ⟨h1, h2⟩ := ih g hg c hc
        exact ⟨List.mem_cons_of_mem _ h1, h2⟩
    | false =>
      rw [splitOnSpace_cons_nonspace h] at hg
      rcases List.mem_cons.mp hg with rfl | hg
      · rcases List.mem_cons.mp hc with rfl | hc
        · exact ⟨List.mem_cons_self _ _, h⟩
        · obtain ⟨h1, h2⟩ := ih _ (headD_mem_splitOnSpace as) c hc
          exact ⟨List.mem_cons_of_mem _ h1, h2⟩
      · have hmem : g ∈ splitOnSpace as := by
          cases hs : splitOnSpace as with
          | nil => exact absurd hs (splitOnSpace_ne_nil as)
          | cons g0 gs0 =>
            rw [hs] at hg
            exact List.mem_cons_of_mem _ hg
        obtain ⟨h1, h2⟩ := ih g hmem c hc
        exact ⟨List.mem_cons_of_mem _ h1, h2⟩

theorem mem_splitWords {s w : PyStr} (hw : w ∈ splitWords s) :
    w ≠ [] ∧ ∀ c ∈ w, c ∈ s ∧ isSpaceB c = false := by
  unfold splitWords at hw
  obtain ⟨hmem, hne⟩ := List.mem_filter.mp hw
  refine ⟨by simpa using hne, fun c hc => mem_splitOnSpace s w hmem c hc⟩

theorem splitOnSpace_all_spaces (z : PyStr) (hz : ∀ c ∈ z, isSpaceB c = true) :
    splitOnSpace z = List.replicate (z.length + 1) [] := by
  induction z with
  | nil => rfl
  | cons c cs ih =>
    rw [splitOnSpace_cons_space (hz c (List.mem_cons_self _ _)),
      ih (fun x hx => hz x (List.mem_cons_of_mem _ hx))]
    rfl

theorem splitOnSpace_append_spaces (z : PyStr) (hz : ∀ c ∈ z, isSpaceB c = true) :
    ∀ y, splitOnSpace (y ++ z) = splitOnSpace y ++ List.replicate z.length [] := by
  intro y
  induction y with
  | nil =>
    rw [List.nil_append, splitOnSpace_all_spaces z hz]
    rfl
  | cons a as ih =>
    cases h : isSpaceB a with
    | true =>
      rw [List.cons_append, splitOnSpace_cons_space h, splitOnSpace_cons_space h, ih]
      rfl
    | false =>
      rw [List.cons_append, splitOnSpace_cons_nonspace h, splitOnSpace_cons_nonspace h, ih]
      cases hs : splitOnSpace as with
      | nil => exact absurd hs (splitOnSpace_ne_nil as)
      | cons g gs => simp

theorem splitOnSpace_spaces_append :
    ∀ z y : PyStr, (∀ c ∈ z, isSpaceB c = true) →
      splitOnSpace (z ++ y) = List.replicate z.length [] ++ splitOnSpace y := by
  intro z
  induction z with
  | nil => intro y _; rfl
  | cons c cs ih =>
    intro y hz
    rw [List.cons_append, splitOnSpace_cons_space (hz c (List.mem_cons_self _ _)),
      ih y (fun x hx => hz x (List.mem_cons_of_mem _ hx))]
    rfl

theorem filter_replicate_nil (n : Nat) :
    (List.replicate n ([] : PyStr)).filter (fun g => !g.isEmpty) = [] := by
  induction n with
  | zero => rfl
  | succ n ih => simp [List.replicate_succ, ih]

theorem splitWords_append_spaces (y z : PyStr) (hz : ∀ c ∈ z, isSpaceB c = true) :
    splitWords (y ++ z) = splitWords y := by
  unfold splitWords
  rw [splitOnSpace_append_spaces z hz y, List.filter_append, filter_replicate_nil,
    List.append_nil]

theorem splitWords_spaces_append (z y : PyStr) (hz : ∀ c ∈ z, isSpaceB c = true) :
    splitWords (z ++ y) = splitWords y := by
  unfold splitWords
  rw [splitOnSpace_spaces_append z y hz, List.filter_append, filter_replicate_nil,
    List.nil_append]

theorem splitWords_pyStrip (s : PyStr) : splitWords (pyStrip s) = splitWords s := by
  unfold pyStrip
  have h1 : splitWords s = splitWords (s.dropWhile isSpaceB) := by
    conv_lhs => rw [← List.takeWhile_append_dropWhile isSpaceB s]
    exact splitWords_spaces_append _ _ (fun c hc => List.mem_takeWhile_imp hc)
  have hdecomp : s.dropWhile isSpaceB =
      ((s.dropWhile isSpaceB).reverse.dropWhile isSpaceB).reverse ++
        ((s.dropWhile isSpaceB).reverse.takeWhile isSpaceB).reverse := by
    conv_lhs => rw [← List.reverse_reverse (s.dropWhile isSpaceB),
      ← List.takeWhile_append_dropWhile isSpaceB (s.dropWhile isSpaceB).reverse]
    rw [List.reverse_append]
  rw [h1]
  conv_rhs => rw [hdecomp]
  rw [splitWords_append_spaces]
  intro c hc
  exact List.mem_takeWhile_imp (List.mem_reverse.mp hc)

theorem collapseSpaces_single (c : Nat) :
    collapseSpaces [c] = if isSpaceB c then [32] else [c] := rfl

theorem collapseSpaces_cons2 (c d : Nat) (cs : PyStr) :
    collapseSpaces (c :: d :: cs) =
      (if isSpaceB c then
        (if isSpaceB d then collapseSpaces (d :: cs) else 32 :: collapseSpaces (d :: cs))
      else c :: collapseSpaces (d :: cs)) := rfl

theorem mem_collapseSpaces (s : PyStr) : ∀ c ∈ collapseSpaces s, c = 32 ∨ c ∈ s := by
  induction s using collapseSpaces.induct with
  | case1 => intro c hc; exact absurd hc (List.not_mem_nil c)
  | case2 a h =>
    intro c hc
    rw [collapseSpaces_single, if_pos h] at hc
    simp only [List.mem_singleton] at hc
    exact Or.inl hc
  | case3 a h =>
    intro c hc
    rw [collapseSpaces_single, if_neg h] at hc
    exact Or.inr hc
  | case4 a d cs ha hd ih =>
    intro c hc
    rw [collapseSpaces_cons2, if_pos ha, if_pos hd] at hc
    rcases ih c hc with h | h
    · exact Or.inl h
    · exact Or.inr (List.mem_cons_of_mem _ h)
  | case5 a d cs ha hd ih =>
    intro c hc
    rw [collapseSpaces_cons2, if_pos ha, if_neg hd] at hc
    rcases List.mem_cons.mp hc with rfl | hc
    · exact Or.inl rfl
    · rcases ih c hc with h | h
      · exact Or.inl h
      · exact Or.inr (List.mem_cons_of_mem _ h)
  | case6 a d cs ha ih =>
    intro c hc
    rw [collapseSpaces_cons2, if_neg ha] at hc
    rcases List.mem_cons.mp hc with rfl | hc
    · exact Or.inr (List.mem_cons_self _ _)
    · rcases ih c hc with h | h
      · exact Or.inl h
      · exact Or.inr (List.mem_cons_of_mem _ h)

theorem filter_tail_eq {A B : List PyStr} (hne : A ≠ []) (hne' : B ≠ [])
    (hh : A.headD [] = B.headD [])
    (hf : A.filter (fun g => !g.isEmpty) = B.filter (fun g => !g.isEmpty)) :
    A.tail.filter (fun g => !g.isEmpty) = B.tail.filter (fun g => !g.isEmpty) := by
  obtain ⟨a, as, rfl⟩ := List.exists_cons_of_ne_nil hne
  obtain ⟨b, bs, rfl⟩ := List.exists_cons_of_ne_nil hne'
  simp only [List.headD_cons] at hh
  subst hh
  simp only [List.filter_cons] at hf
  simp only [List.tail_cons]
  by_cases ha : (!a.isEmpty) = true
  · rw [if_pos ha, if_pos ha] at hf
    simp only [List.cons.injEq] at hf
    exact hf.2
  · rw [if_neg ha, if_neg ha] at hf
    exact hf

theorem collapse_split (s : PyStr) :
    splitWords (collapseSpaces s) = splitWords s ∧
    (splitOnSpace (collapseSpaces s)).headD [] = (splitOnSpace s).headD [] := by
  induction s using collapseSpaces.induct with
  | case1 => exact ⟨rfl, rfl⟩
  | case2 c h =>
    rw [collapseSpaces_single, if_pos h]
    constructor
    · unfold splitWords
      rw [show ([32] : PyStr) = 32 :: [] from rfl, splitOnSpace_cons_space (show isSpaceB 32 = true from rfl),
        splitOnSpace_cons_space h]
    · rw [show ([32] : PyStr) = 32 :: [] from rfl, splitOnSpace_cons_space (show isSpaceB 32 = true from rfl),
        splitOnSpace_cons_space h]
  | case3 c h =>
    rw [collapseSpaces_single, if_neg h]
    exact ⟨rfl, rfl⟩
  | case4 c d cs hc hd ih =>
    rw [collapseSpaces_cons2, if_pos hc, if_pos hd]
    constructor
    · rw [ih.1]
      unfold splitWords
      rw [splitOnSpace_cons_space hc]
      rw [splitOnSpace_cons_space hd]
      rfl
    · rw [ih.2]
      rw [splitOnSpace_cons_space hc, splitOnSpace_cons_space hd]
      rfl
  | case5 c d cs hc hd ih =>
    rw [collapseSpaces_cons2, if_pos hc, if_neg hd]
    constructor
    · unfold splitWords
      rw [splitOnSpace_cons_space (show isSpaceB 32 = true from rfl), splitOnSpace_cons_space hc]
      have h1 := ih.1
      unfold splitWords at h1
      simpa using h1
    · rw [splitOnSpace_cons_space (show isSpaceB 32 = true from rfl), splitOnSpace_cons_space hc]
      rfl
  | case6 c d cs hc ih =>
    have hc' : isSpaceB c = false := by
      cases hcc : isSpaceB c with
      | true => exact absurd hcc hc
      | false => rfl
    rw [collapseSpaces_cons2, if_neg hc]
    have h1 := ih.1
    unfold splitWords at h1
    constructor
    · unfold splitWords
      rw [splitOnSpace_cons_nonspace hc', splitOnSpace_cons_nonspace hc', ih.2]
      simp only [List.filter_cons]
      have hcc : (!(c :: (splitOnSpace (d :: cs)).headD []).isEmpty) = true := by simp
      rw [if_pos hcc, if_pos hcc]
      congr 1
      exact filter_tail_eq (splitOnSpace_ne_nil _) (splitOnSpace_ne_nil _) ih.2 h1
    · rw [splitOnSpace_cons_nonspace hc', splitOnSpace_cons_nonspace hc', ih.2]
      simp

theorem splitWords_collapse (s : PyStr) : splitWords (collapseSpaces s) = splitWords s :=
  (collapse_split s).1

theorem map_eq_self_of {f : Nat → Nat} : ∀ {l : List Nat}, (∀ c ∈ l, f c = c) → l.map f = l := by
  intro l
  induction l with
  | nil => intro _; rfl
  | cons a l ih =>
    intro h
    rw [List.map_cons, h a (List.mem_cons_self _ _), ih (fun x hx => h x (List.mem_cons_of_mem _ hx))]

theorem joinSpace_ne_nil {w : PyStr} {ws : List PyStr} (hw : w ≠ []) :
    joinSpace (w :: ws) ≠ [] := by
  cases ws with
  | nil => exact hw
  | cons w' ws' => exact ne_nil_of_append_left hw

theorem joinSpace_head? {w : PyStr} (ws : List PyStr) (hw : w ≠ []) :
    (joinSpace (w :: ws)).head? = w.head? := by
  cases ws with
  | nil => rfl
  | cons w' ws' =>
    obtain ⟨a, as, rfl⟩ := List.exists_cons_of_ne_nil hw
    rfl

theorem mem_joinSpace : ∀ ws : List PyStr, ∀ c ∈ joinSpace ws, c = 32 ∨ ∃ w ∈ ws, c ∈ w := by
  intro ws
  induction ws with
  | nil => intro c hc; simp [joinSpace] at hc
  | cons w ws ih =>
    intro c hc
    cases ws with
    | nil => exact Or.inr ⟨w, by simp, hc⟩
    | cons w' ws' =>
      rcases List.mem_append.mp hc with hc | hc
      · exact Or.inr ⟨w, by simp, hc⟩
      · rcases List.mem_cons.mp hc with rfl | hc
        · exact Or.inl rfl
        · rcases ih c hc with h | ⟨v, hv, hcv⟩
          · exact Or.inl h
          · exact Or.inr ⟨v, List.mem_cons_of_mem _ hv, hcv⟩

theorem joinSpace_getLast? : ∀ ws : List PyStr, (∀ w ∈ ws, w ≠ []) → ws ≠ [] →
    ∃ w ∈ ws, (joinSpace ws).getLast? = w.getLast? := by
  intro ws
  induction ws with
  | nil => intro _ h; exact absurd rfl h
  | cons w ws ih =>
    intro hws _
    cases ws with
    | nil => exact ⟨w, by simp, rfl⟩
    | cons w' ws' =>
      obtain ⟨v, hv, hlast⟩ := ih (fun x hx => hws x (List.mem_cons_of_mem _ hx)) (by simp)
      refine ⟨v, List.mem_cons_of_mem _ hv, ?_⟩
      show (w ++ 32 :: joinSpace (w' :: ws')).getLast? = v.getLast?
      rw [List.getLast?_append_of_ne_nil _ (by simp)]
      have hjne : joinSpace (w' :: ws') ≠ [] := joinSpace_ne_nil (hws w' (by simp))
      obtain ⟨b, bs, hb⟩ := List.exists_cons_of_ne_nil hjne
      rw [hb, List.getLast?_cons_cons, ← hb, hlast]

theorem pyStrip_eq_self (s : PyStr) (h1 : ∀ c ∈ s.head?, isSpaceB c = false)
    (h2 : ∀ c ∈ s.getLast?, isSpaceB c = false) : pyStrip s = s := by
  unfold pyStrip
  cases s with
  | nil => rfl
  | cons a as =>
    have ha : isSpaceB a = false := h1 a rfl
    rw [List.dropWhile_cons_of_neg (by simp [ha])]
    have hrev : (a :: as).reverse.head? = (a :: as).getLast? := List.head?_reverse _
    cases hr : (a :: as).reverse with
    | nil => simp at hr
    | cons b bs =>
      have hb : isSpaceB b = false := by
        apply h2
        rw [← hrev, hr]
        rfl
      have hdw : List.dropWhile isSpaceB (b :: bs) = b :: bs := by
        rw [List.dropWhile_cons_of_neg]
        simp [hb]
      rw [hdw, ← hr, List.reverse_reverse]

theorem pyStrip_joinSpace (ws : List PyStr)
    (h : ∀ w ∈ ws, w ≠ [] ∧ ∀ c ∈ w, isSpaceB c = false) :
    pyStrip (joinSpace ws) = joinSpace ws := by
  cases ws with
  | nil => rfl
  | cons w ws' =>
    refine pyStrip_eq_self _ ?_ ?_
    · intro c hc
      rw [joinSpace_head? ws' (h w (by simp)).1] at hc
      obtain ⟨a, as, rfl⟩ := List.exists_cons_of_ne_nil (h w (by simp)).1
      have hca : a = c := by simpa using hc
      exact hca ▸ (h (a :: as) (by simp)).2 a (by simp)
    · intro c hc
      obtain ⟨v, hv, hlast⟩ := joinSpace_getLast? (w :: ws') (fun x hx => (h x hx).1) (by simp)
      rw [hlast] at hc
      obtain ⟨hne, hcl⟩ := List.mem_getLast?_eq_getLast hc
      exact (h v hv).2 c (hcl ▸ List.getLast_mem hne)

/-! ### Sorting (Python list.sort on strings) -/

theorem lexLe_total : ∀ a b : PyStr, lexLe a b = true ∨ lexLe b a = true := by
  intro a
  induction a with
  | nil => intro b; exact Or.inl rfl
  | cons x xs ih =>
    intro b
    cases b with
    | nil => exact Or.inr rfl
    | cons y ys =>
      simp only [lexLe]
      rcases Nat.lt_trichotomy x y with h | h | h
      · left
        rw [if_pos h]
      · subst h
        have hx : ¬ x < x := Nat.lt_irrefl x
        rcases ih ys with h2 | h2
        · left
          rw [if_neg hx, if_pos (show (x == x) = true by simp)]
          exact h2
        · right
          rw [if_neg hx, if_pos (show (x == x) = true by simp)]
          exact h2
      · right
        rw [if_pos h]

theorem lexLe_trans : ∀ a b c : PyStr, lexLe a b = true → lexLe b c = true →
    lexLe a c = true := by
  intro a
  induction a with
  | nil => intro b c _ _; rfl
  | cons x xs ih =>
    intro b c h1 h2
    cases b with
    | nil => simp [lexLe] at h1
    | cons y ys =>
      cases c with
      | nil => simp [lexLe] at h2
      | cons z zs =>
        simp only [lexLe] at h1 h2 ⊢
        by_cases hxy : x < y
        · by_cases hyz : y < z
          · rw [if_pos (Nat.lt_trans hxy hyz)]
          · by_cases heq : y = z
            · subst heq
              rw [if_pos hxy]
            · rw [if_neg hyz, if_neg (by simp [heq])] at h2
              exact absurd h2 (by simp)
        · by_cases heq : x = y
          · subst heq
            rw [if_neg hxy, if_pos (show (x == x) = true by simp)] at h1
            by_cases hxz : x < z
            · rw [if_pos hxz]
            · by_cases heq2 : x = z
              · subst heq2
                rw [if_neg hxz, if_pos (show (x == x) = true by simp)] at h2 ⊢
                exact ih ys zs h1 h2
              · rw [if_neg hxz, if_neg (by simp [heq2])] at h2
                exact absurd h2 (by simp)
          · rw [if_neg hxy, if_neg (by simp [heq])] at h1
            exact absurd h1 (by simp)

theorem mem_insertWord (w : PyStr) : ∀ l (x : PyStr), x ∈ insertWord w l ↔ x = w ∨ x ∈ l := by
  intro l
  induction l with
  | nil => intro x; simp [insertWord]
  | cons v vs ih =>
    intro x
    simp only [insertWord]
    split_ifs with h
    · simp only [List.mem_cons]
    · simp only [List.mem_cons, ih x]
      tauto

theorem pairwise_insertWord {w : PyStr} : ∀ {l : List PyStr},
    l.Pairwise (fun a b => lexLe a b = true) →
    (insertWord w l).Pairwise (fun a b => lexLe a b = true) := by
  intro l
  induction l with
  | nil => intro _; simp [insertWord]
  | cons v vs ih =>
    intro hp
    simp only [insertWord]
    split_ifs with h
    · refine List.Pairwise.cons ?_ hp
      intro b hb
      rcases List.mem_cons.mp hb with rfl | hb
      · exact h
      · exact lexLe_trans w v b h ((List.pairwise_cons.mp hp).1 b hb)
    · have hvw : lexLe v w = true := by
        rcases lexLe_total w v with h2 | h2
        · exact absurd h2 h
        · exact h2
      obtain ⟨hv, hvs⟩ := List.pairwise_cons.mp hp
      refine List.Pairwise.cons ?_ (ih hvs)
      intro b hb
      rcases (mem_insertWord w vs b).mp hb with rfl | hb
      · exact hvw
      · exact hv b hb

theorem pairwise_sortWords : ∀ l : List PyStr,
    (sortWords l).Pairwise (fun a b => lexLe a b = true) := by
  intro l
  induction l with
  | nil => simp [sortWords]
  | cons w ws ih => exact pairwise_insertWord ih

theorem sortWords_eq_self : ∀ {l : List PyStr},
    l.Pairwise (fun a b => lexLe a b = true) → sortWords l = l := by
  intro l
  induction l with
  | nil => intro _; rfl
  | cons w ws ih =>
    intro hp
    obtain ⟨hw, hws⟩ := List.pairwise_cons.mp hp
    simp only [sortWords]
    rw [ih hws]
    cases ws with
    | nil => rfl
    | cons v vs =>
      simp only [insertWord]
      rw [if_pos (hw v (List.mem_cons_self _ _))]

theorem mem_sortWords : ∀ (l : List PyStr) (x : PyStr), x ∈ sortWords l ↔ x ∈ l := by
  intro l
  induction l with
  | nil => intro x; simp [sortWords]
  | cons w ws ih =>
    intro x
    simp only [sortWords]
    rw [mem_insertWord]
    simp [List.mem_cons, ih x]

/-! ### Round trips between joinSpace and splitWords -/

theorem splitOnSpace_no_space : ∀ w : PyStr, (∀ c ∈ w, isSpaceB c = false) →
    splitOnSpace w = [w] := by
  intro w
  induction w with
  | nil => intro _; rfl
  | cons c cs ih =>
    intro h
    rw [splitOnSpace_cons_nonspace (h c (List.mem_cons_self _ _)),
      ih (fun x hx => h x (List.mem_cons_of_mem _ hx))]
    rfl

theorem splitOnSpace_word_append : ∀ w z : PyStr, (∀ c ∈ w, isSpaceB c = false) →
    splitOnSpace (w ++ z) = (w ++ (splitOnSpace z).headD []) :: (splitOnSpace z).tail := by
  intro w
  induction w with
  | nil =>
    intro z _
    rw [List.nil_append, List.nil_append]
    cases hs : splitOnSpace z with
    | nil => exact absurd hs (splitOnSpace_ne_nil z)
    | cons g gs => rfl
  | cons c cs ih =>
    intro z h
    rw [List.cons_append, splitOnSpace_cons_nonspace (h c (List.mem_cons_self _ _)),
      ih z (fun x hx => h x (List.mem_cons_of_mem _ hx))]
    simp

theorem splitWords_joinSpace : ∀ ws : List PyStr,
    (∀ w ∈ ws, w ≠ [] ∧ ∀ c ∈ w, isSpaceB c = false) → splitWords (joinSpace ws) = ws := by
  intro ws
  induction ws with
  | nil => intro _; rfl
  | cons w ws ih =>
    intro h
    obtain ⟨hne, hns⟩ := h w (List.mem_cons_self _ _)
    cases ws with
    | nil =>
      show splitWords w = [w]
      unfold splitWords
      rw [splitOnSpace_no_space w hns, List.filter_cons,
        if_pos (by simp [List.isEmpty_iff, hne])]
      rfl
    | cons w' ws' =>
      show splitWords (w ++ 32 :: joinSpace (w' :: ws')) = w :: w' :: ws'
      unfold splitWords
      rw [splitOnSpace_word_append w _ hns,
        splitOnSpace_cons_space (show isSpaceB 32 = true from rfl)]
      simp only [List.headD_cons, List.tail_cons, List.append_nil]
      rw [List.filter_cons, if_pos (by simp [List.isEmpty_iff, hne])]
      have hih := ih (fun x hx => h x (List.mem_cons_of_mem _ hx))
      unfold splitWords at hih
      rw [hih]

/-! ### collapseSpaces is the identity on single-spaced word sequences -/

theorem collapse_word : ∀ w : PyStr, (∀ c ∈ w, isSpaceB c = false) →
    collapseSpaces w = w := by
  intro w
  induction w with
  | nil => intro _; rfl
  | cons c cs ih =>
    intro h
    have hc := h c (List.mem_cons_self _ _)
    cases cs with
    | nil => rw [collapseSpaces_single, if_neg (by simp [hc])]
    | cons d ds =>
      rw [collapseSpaces_cons2, if_neg (by simp [hc]),
        ih (fun x hx => h x (List.mem_cons_of_mem _ hx))]

theorem collapse_space_cons (X : PyStr) (hX : collapseSpaces X = X) (hne : X ≠ [])
    (hhd : ∀ c ∈ X.head?, isSpaceB c = false) :
    collapseSpaces (32 :: X) = 32 :: X := by
  obtain ⟨x, xs, rfl⟩ := List.exists_cons_of_ne_nil hne
  have hx : isSpaceB x = false := hhd x rfl
  rw [collapseSpaces_cons2, if_pos (show isSpaceB 32 = true from rfl), if_neg (by simp [hx]), hX]

theorem collapse_word_append_space : ∀ w : PyStr, (∀ c ∈ w, isSpaceB c = false) →
    ∀ X : PyStr, collapseSpaces X = X → X ≠ [] → (∀ c ∈ X.head?, isSpaceB c = false) →
    collapseSpaces (w ++ 32 :: X) = w ++ 32 :: X := by
  intro w
  induction w with
  | nil =>
    intro _ X hX hne hhd
    simpa using collapse_space_cons X hX hne hhd
  | cons c cs ih =>
    intro h X hX hne hhd
    have hc := h c (List.mem_cons_self _ _)
    cases hcs : cs ++ 32 :: X with
    | nil => exact absurd hcs (by cases cs <;> simp)
    | cons d rest =>
      rw [List.cons_append, hcs, collapseSpaces_cons2, if_neg (by simp [hc]), ← hcs,
        ih (fun x hx => h x (List.mem_cons_of_mem _ hx)) X hX hne hhd]

theorem collapse_joinSpace : ∀ ws : List PyStr,
    (∀ w ∈ ws, w ≠ [] ∧ ∀ c ∈ w, isSpaceB c = false) →
    collapseSpaces (joinSpace ws) = joinSpace ws := by
  intro ws
  induction ws with
  | nil => intro _; rfl
  | cons w ws ih =>
    intro h
    cases ws with
    | nil => exact collapse_word w (h w (List.mem_cons_self _ _)).2
    | cons w' ws' =>
      show collapseSpaces (w ++ 32 :: joinSpace (w' :: ws')) = _
      refine collapse_word_append_space w (h w (List.mem_cons_self _ _)).2 _
        (ih (fun x hx => h x (List.mem_cons_of_mem _ hx))) (joinSpace_ne_nil (h w' (by simp)).1) ?_
      intro c hc
      rw [joinSpace_head? ws' (h w' (by simp)).1] at hc
      obtain ⟨a, as, rfl⟩ := List.exists_cons_of_ne_nil (h w' (by simp)).1
      have hca : a = c := by simpa using hc
      exact hca ▸ (h (a :: as) (by simp)).2 a (by simp)

/-! ### Character provenance through the normalize_title pipeline -/

theorem mem_stripLabel {w s : PyStr} : ∀ c ∈ stripLabel w s, c ∈ s := by
  intro c hc
  unfold stripLabel at hc
  split_ifs at hc with h
  · replace hc := (List.dropWhile_sublist _).subset hc
    split at hc
    · next r1 heq =>
        have hdrop : c ∈ s.drop w.length := by
          rw [heq]
          exact List.mem_cons_of_mem _ hc
        exact (List.drop_sublist _ _).subset hdrop
    · exact (List.drop_sublist _ _).subset hc
  · exact hc

theorem mem_stripLabels {s : PyStr} : ∀ c ∈ stripLabels s, c ∈ s := by
  suffices h : ∀ (ws : List PyStr) (s : PyStr), ∀ c ∈ ws.foldl (fun acc w => stripLabel w acc) s, c ∈ s by
    intro c hc
    exact h label_words s c hc
  intro ws
  induction ws with
  | nil => intro s c hc; exact hc
  | cons w ws ih =>
    intro s c hc
    exact mem_stripLabel c (ih (stripLabel w s) c hc)

theorem mem_pyStrip {s : PyStr} : ∀ c ∈ pyStrip s, c ∈ s := by
  intro c hc
  unfold pyStrip at hc
  have h1 := List.mem_reverse.mp hc
  have h2 := (List.dropWhile_sublist _).subset h1
  have h3 := List.mem_reverse.mp h2
  exact (List.dropWhile_sublist _).subset h3

theorem normalize_title_eq_joinSpace (t : PyStr) :
    normalize_title t = joinSpace (sortWords ((splitWords (pyStrip (collapseSpaces
      ((stripLabels (pyStrip (t.map toLowerCP))).filter
        (fun c => isWordCharB c || isSpaceB c))))).filter
          (fun w => decide (w ∉ stop_words)))) := rfl

theorem normalize_words_prop (t : PyStr) :
    ∀ w ∈ sortWords ((splitWords (pyStrip (collapseSpaces
      ((stripLabels (pyStrip (t.map toLowerCP))).filter
        (fun c => isWordCharB c || isSpaceB c))))).filter
          (fun w => decide (w ∉ stop_words))),
      w ≠ [] ∧ (∀ c ∈ w, isWordCharB c = true ∧ toLowerCP c = c) ∧ w ∉ stop_words := by
  intro w hw
  rw [mem_sortWords] at hw
  obtain ⟨hmem, hstop⟩ := List.mem_filter.mp hw
  obtain ⟨hne, hchars⟩ := mem_splitWords hmem
  refine ⟨hne, ?_, by simpa using hstop⟩
  intro c hc
  obtain ⟨hcs, hcns⟩ := hchars c hc
  have h1 : c ∈ collapseSpaces ((stripLabels (pyStrip (t.map toLowerCP))).filter
      (fun c => isWordCharB c || isSpaceB c)) := mem_pyStrip _ hcs
  rcases mem_collapseSpaces _ c h1 with h32 | h2
  · rw [h32] at hcns
    exact absurd hcns (by decide)
  · obtain ⟨hmem2, hcond⟩ := List.mem_filter.mp h2
    have hword : isWordCharB c = true := by
      simp only [Bool.or_eq_true] at hcond
      rcases hcond with hcw | hcw
      · exact hcw
      · rw [hcw] at hcns
        exact absurd hcns (by simp)
    refine ⟨hword, ?_⟩
    have h3 : c ∈ pyStrip (t.map toLowerCP) := mem_stripLabels _ hmem2
    have h4 : c ∈ t.map toLowerCP := mem_pyStrip _ h3
    obtain ⟨c0, _, hc0⟩ := List.mem_map.mp h4
    rw [← hc0]
    exact toLowerCP_idem c0

/-- The structure of every normalized key: a sorted sequence of non-empty,
lowercase, punctuation-free, non-stop-word tokens joined by single spaces. -/
theorem normalize_title_structure (t : PyStr) :
    ∃ ws : List PyStr, normalize_title t = joinSpace ws ∧
      (∀ w ∈ ws, w ≠ [] ∧ (∀ c ∈ w, isWordCharB c = true ∧ toLowerCP c = c) ∧ w ∉ stop_words) ∧
      ws.Pairwise (fun a b => lexLe a b = true) :=
  ⟨_, normalize_title_eq_joinSpace t, normalize_words_prop t, pairwise_sortWords _⟩

/-- C2 amended: `normalize_title` is total, and it is idempotent on every
input whose normalized key is left unchanged by the label-prefix-stripping
step (the one pipeline stage a key can re-trigger). -/
theorem c2_idempotent_amended (t : PyStr)
    (h : stripLabels (normalize_title t) = normalize_title t) :
    normalize_title (normalize_title t) = normalize_title t := by
  obtain ⟨ws, hkey, hprops, hsorted⟩ := normalize_title_structure t
  have hwords : ∀ w ∈ ws, w ≠ [] ∧ ∀ c ∈ w, isSpaceB c = false := fun w hw =>
    ⟨(hprops w hw).1, fun c hc => word_not_space ((hprops w hw).2.1 c hc).1⟩
  rw [hkey] at h ⊢
  rw [normalize_title_eq_joinSpace (joinSpace ws)]
  have hA : (joinSpace ws).map toLowerCP = joinSpace ws := by
    refine map_eq_self_of ?_
    intro c hc
    rcases mem_joinSpace ws c hc with rfl | ⟨w, hw, hcw⟩
    · rfl
    · exact ((hprops w hw).2.1 c hcw).2
  have hB : pyStrip (joinSpace ws) = joinSpace ws := pyStrip_joinSpace ws hwords
  have hD : (joinSpace ws).filter (fun c => isWordCharB c || isSpaceB c) = joinSpace ws := by
    rw [List.filter_eq_self]
    intro c hc
    rcases mem_joinSpace ws c hc with rfl | ⟨w, hw, hcw⟩
    · decide
    · simp [((hprops w hw).2.1 c hcw).1]
  have hH : ws.filter (fun w => decide (w ∉ stop_words)) = ws := by
    rw [List.filter_eq_self]
    intro w hw
    simpa using (hprops w hw).2.2
  rw [hA, hB, h, hD, collapse_joinSpace ws hwords, hB, splitWords_joinSpace ws hwords, hH,
    sortWords_eq_self hsorted]

/-- Witness for C2 amended: a key with no leading label token is a fixed
point of a second normalization. -/
theorem c2_idempotent_amended_witness :
    normalize_title (normalize_title (str2cp "Tech Firm Reports Record Earnings")) =
      normalize_title (str2cp "Tech Firm Reports Record Earnings") :=
  c2_idempotent_amended (str2cp "Tech Firm Reports Record Earnings") (by decide)

/-! ### Punctuation removal viewed token-wise (claim C10) -/

theorem splitOnSpace_filter (s : PyStr) :
    splitOnSpace (s.filter (fun c => isWordCharB c || isSpaceB c)) =
      (splitOnSpace s).map (List.filter isWordCharB) := by
  induction s with
  | nil => rfl
  | cons c cs ih =>
    obtain ⟨g, gs, hg⟩ := List.exists_cons_of_ne_nil (splitOnSpace_ne_nil cs)
    by_cases hsp : isSpaceB c = true
    · have hkeep : (isWordCharB c || isSpaceB c) = true := by simp [hsp]
      rw [List.filter_cons, if_pos hkeep, splitOnSpace_cons_space hsp, ih,
        splitOnSpace_cons_space hsp]
      rfl
    · rw [Bool.not_eq_true] at hsp
      by_cases hw : isWordCharB c = true
      · have hkeep : (isWordCharB c || isSpaceB c) = true := by simp [hw]
        rw [List.filter_cons, if_pos hkeep, splitOnSpace_cons_nonspace hsp, ih,
          splitOnSpace_cons_nonspace hsp, hg]
        simp [List.filter_cons, hw]
      · rw [Bool.not_eq_true] at hw
        have hdrop : (isWordCharB c || isSpaceB c) = false := by simp [hw, hsp]
        rw [List.filter_cons, if_neg (by simp [hdrop]), ih, splitOnSpace_cons_nonspace hsp, hg]
        simp [List.filter_cons, hw]

theorem mem_splitWords_filter {s w : PyStr}
    (hw : w ∈ splitWords (s.filter (fun c => isWordCharB c || isSpaceB c))) :
    ∃ g ∈ splitWords s, w = g.filter isWordCharB := by
  have hwne : w ≠ [] := (mem_splitWords hw).1
  unfold splitWords at hw ⊢
  rw [splitOnSpace_filter] at hw
  obtain ⟨hmem, hne⟩ := List.mem_filter.mp hw
  obtain ⟨g, hg, hgw⟩ := List.mem_map.mp hmem
  refine ⟨g, ?_, hgw.symm⟩
  rw [List.mem_filter]
  refine ⟨hg, ?_⟩
  cases g with
  | nil =>
    rw [← hgw] at hwne
    simp at hwne
  | cons a as => simp

theorem takeWhile_append_all {p : Nat → Bool} : ∀ w r : PyStr, (∀ c ∈ w, p c = true) →
    List.takeWhile p (w ++ r) = w ++ List.takeWhile p r := by
  intro w
  induction w with
  | nil => intro r _; rfl
  | cons c cs ih =>
    intro r h
    rw [List.cons_append]
    simp [List.takeWhile_cons, h c (List.mem_cons_self _ _),
      ih r (fun x hx => h x (List.mem_cons_of_mem _ hx))]

theorem label_not_prefix_of_filler (t : PyStr) (h : fillerTokensOnly t = true) :
    ∀ w ∈ label_words, w.isPrefixOf (pyStrip (t.map toLowerCP)) = false := by
  intro w hwlab
  cases hpre : w.isPrefixOf (pyStrip (t.map toLowerCP)) with
  | false => rfl
  | true =>
    exfalso
    have hw_word : ∀ c ∈ w, isWordCharB c = true := by
      have hall : ∀ w ∈ label_words, ∀ c ∈ w, isWordCharB c = true := by decide
      exact hall w hwlab
    have hw_ne : w ≠ [] := by
      have hall : ∀ w ∈ label_words, w ≠ [] := by decide
      exact hall w hwlab
    obtain ⟨r, hr⟩ := List.isPrefixOf_iff_prefix.mp hpre
    have hτ : (pyStrip (t.map toLowerCP)).takeWhile (fun c => !isSpaceB c) =
        w ++ r.takeWhile (fun c => !isSpaceB c) := by
      rw [← hr]
      exact takeWhile_append_all w r (fun c hc => by simp [word_not_space (hw_word c hc)])
    have hτne : (pyStrip (t.map toLowerCP)).takeWhile (fun c => !isSpaceB c) ≠ [] := by
      rw [hτ]
      exact ne_nil_of_append_left hw_ne
    have hτmem : (pyStrip (t.map toLowerCP)).takeWhile (fun c => !isSpaceB c) ∈
        splitWords (pyStrip (t.map toLowerCP)) := by
      unfold splitWords
      rw [List.mem_filter]
      constructor
      · rw [← splitOnSpace_headD]
        exact headD_mem_splitOnSpace _
      · simpa [List.isEmpty_iff] using hτne
    rw [splitWords_pyStrip] at hτmem
    have hh := List.all_eq_true.mp h _ hτmem
    have hwpre : w <+: ((pyStrip (t.map toLowerCP)).takeWhile (fun c => !isSpaceB c)).filter
        isWordCharB := by
      rw [hτ, List.filter_append, List.filter_eq_self.mpr (fun c hc => hw_word c hc)]
      exact ⟨_, rfl⟩
    have hne2 : ((pyStrip (t.map toLowerCP)).takeWhile (fun c => !isSpaceB c)).filter
        isWordCharB ≠ [] := by
      intro h0
      rw [h0] at hwpre
      exact hw_ne (List.prefix_nil.mp hwpre)
    have hstop : ((pyStrip (t.map toLowerCP)).takeWhile (fun c => !isSpaceB c)).filter
        isWordCharB ∈ stop_words := by
      simp only [Bool.or_eq_true, decide_eq_true_eq] at hh
      rcases hh with h1 | h1
      · exact h1
      · exact absurd (List.isEmpty_iff.mp h1) hne2
    have hnone : ∀ u ∈ stop_words, ∀ w' ∈ label_words, ¬ w' <+: u := by decide
    exact hnone _ hstop w hwlab hwpre

theorem stripLabel_eq_self {w s : PyStr} (h : w.isPrefixOf s = false) : stripLabel w s = s := by
  unfold stripLabel
  rw [if_neg (by simp [h])]

theorem stripLabels_eq_self {s : PyStr} (h : ∀ w ∈ label_words, w.isPrefixOf s = false) :
    stripLabels s = s := by
  unfold stripLabels
  have hgen : ∀ ws : List PyStr, (∀ w ∈ ws, w.isPrefixOf s = false) →
      ws.foldl (fun acc w => stripLabel w acc) s = s := by
    intro ws
    induction ws with
    | nil => intro _; rfl
    | cons w ws ih =>
      intro hws
      show ws.foldl (fun acc w => stripLabel w acc) (stripLabel w s) = s
      rw [stripLabel_eq_self (hws w (List.mem_cons_self _ _))]
      exact ih (fun x hx => hws x (List.mem_cons_of_mem _ hx))
  exact hgen label_words h

/-- Titles made only of punctuation, whitespace and stop-word tokens collapse
to the empty key. -/
theorem normalize_title_filler (t : PyStr) (h : fillerTokensOnly t = true) :
    normalize_title t = [] := by
  rw [normalize_title_eq_joinSpace, stripLabels_eq_self (label_not_prefix_of_filler t h)]
  have hfil : (splitWords (pyStrip (collapseSpaces ((pyStrip (t.map toLowerCP)).filter
      (fun c => isWordCharB c || isSpaceB c))))).filter (fun w => decide (w ∉ stop_words)) = [] := by
    rw [splitWords_pyStrip, splitWords_collapse, List.filter_eq_nil_iff]
    intro w hw
    obtain ⟨g, hg, rfl⟩ := mem_splitWords_filter hw
    have hwne : g.filter isWordCharB ≠ [] := (mem_splitWords hw).1
    rw [splitWords_pyStrip] at hg
    have hh := List.all_eq_true.mp h g hg
    simp only [Bool.or_eq_true, decide_eq_true_eq] at hh
    simp only [decide_eq_true_eq, Decidable.not_not]
    rcases hh with h1 | h1
    · exact h1
    · exact absurd (List.isEmpty_iff.mp h1) hwne
  rw [hfil]
  rfl

/-- C10 amended: every title whose whitespace tokens reduce to stop words or
to nothing normalizes to the empty key; all such titles collide there, and
once the empty key is in today's ledger no such topic is ever selected. -/
theorem c10_filler_titles_amended (t : PyStr) (h : fillerTokensOnly t = true) :
    normalize_title t = [] ∧
    ∀ (num : Nat) (daily raw ee : List PyStr) (dateStr : PyStr) (u : PyStr),
      fillerTokensOnly u = true → ([] : PyStr) ∈ daily →
      u ∉ get_trending_topics num daily raw ee dateStr := by
  refine ⟨normalize_title_filler t h, ?_⟩
  intro num daily raw ee dateStr u hu hdaily hmem
  have hfresh := get_trending_topics_fresh num daily raw ee dateStr u hmem
  rw [normalize_title_filler u hu] at hfresh
  exact hfresh hdaily

/-- Witness for C10 amended at a stop-word-and-punctuation title. -/
theorem c10_filler_titles_amended_witness :
    normalize_title (str2cp "The, of!! and") = [] ∧
    str2cp "On Today" ∉ get_trending_topics 1 [([] : PyStr)] [str2cp "On Today"] []
      (str2cp "October 12, 2026") :=
  ⟨(c10_filler_titles_amended (str2cp "The, of!! and") (by decide)).1,
   (c10_filler_titles_amended (str2cp "The, of!! and") (by decide)).2 1 [([] : PyStr)]
     [str2cp "On Today"] [] (str2cp "October 12, 2026") (str2cp "On Today")
     (by decide) (by decide)⟩

/-- C6 counterexample: when 100% of a topic's candidate URLs fail extraction
the attribution list is NOT drawn from the static fallback source list — it
lists the attempted domains, here a single entry. -/
theorem c6_failed_extraction_attribution :
    policeResearch = [(str2cp "bbc.com",
        extract_first_three_lines (str2cp "bbc.com") .requestError (some policeTitle))] ∧
    structured_article_source_domains policeResearch = [str2cp "bbc.com"] := by
  exact ⟨rfl, by decide⟩

end NewsGen
